import Mathlib

/-!
Verification development for the SPITRO journey-resolution pipeline
(`src/app/api/journey/route.ts` and the client libraries it uses).

The TypeScript source is shallowly embedded: pure helpers become Lean
functions, provider calls become oracle fields returning `Except String _`
(`.error` models a thrown/rejected promise), and JavaScript truthiness on
optional strings is made explicit.  Strings are treated at ASCII level,
which covers the whole vocabulary the route manipulates.
-/

set_option maxRecDepth 4096

namespace Spitro

/-! ### JavaScript string primitives (ASCII fragment) -/

/-- ASCII lower-casing of one character, as used by `String.toLowerCase`
on the route's ASCII vocabulary. -/
def lowerChar (c : Char) : Char :=
  if 'A' ≤ c ∧ c ≤ 'Z' then Char.ofNat (c.toNat + 32) else c

/-- ASCII upper-casing of one character (`String.toUpperCase`). -/
def upperChar (c : Char) : Char :=
  if 'a' ≤ c ∧ c ≤ 'z' then Char.ofNat (c.toNat - 32) else c

/-- `String.toLowerCase` on the ASCII fragment. -/
def jsToLower (s : String) : String := String.mk (s.toList.map lowerChar)

/-- `String.toUpperCase` on the ASCII fragment. -/
def jsToUpper (s : String) : String := String.mk (s.toList.map upperChar)

/-- White-space class used by `String.trim` (ASCII part). -/
def isTrimChar (c : Char) : Bool :=
  c = ' ' || c = '\t' || c = '\n' || c = '\r'

/-- `String.trim`: strip leading and trailing white space. -/
def jsTrim (s : String) : String :=
  String.mk (((s.toList.dropWhile isTrimChar).reverse.dropWhile isTrimChar).reverse)

/-- JavaScript truthiness for an optional string: `undefined` and the
empty string are falsy. -/
def jsTruthy : Option String → Option String
  | some "" => none
  | none => none
  | some s => some s

/-- Does the string contain a comma (`includes(',')`)? -/
def hasComma (s : String) : Bool := s.toList.contains ','

/-! ### Word-boundary matching (the `\b…\b` regexes of the route) -/

/-- The regex word class `\w` = `[A-Za-z0-9_]`. -/
def isWordChar (c : Char) : Bool := c.isAlpha || c.isDigit || c == '_'

/-- Case-insensitive character equality (flag `i`). -/
def lowEq (a b : Char) : Bool := lowerChar a == lowerChar b

/-- Case-insensitive list-prefix test. -/
def prefixMatchCI : List Char → List Char → Bool
  | [], _ => true
  | _ :: _, [] => false
  | a :: as, b :: bs => lowEq a b && prefixMatchCI as bs

/-- `\b` holds after the matched word: the next character (if any) is not
a word character. -/
def afterBoundaryOk (w t : List Char) : Bool :=
  match t.drop w.length with
  | [] => true
  | c :: _ => !isWordChar c

/-- `\b` holds before the match: the previous character (if any) is not a
word character. -/
def beforeBoundaryOk : Option Char → Bool
  | none => true
  | some c => !isWordChar c

/-- Scan `t` for a case-insensitive occurrence of `w` with word
boundaries on both sides; `prev` is the character left of the scan
position. -/
def containsWordCIAux (w : List Char) : Option Char → List Char → Bool
  | prev, [] => beforeBoundaryOk prev && prefixMatchCI w [] && afterBoundaryOk w []
  | prev, c :: cs =>
    (beforeBoundaryOk prev && prefixMatchCI w (c :: cs) && afterBoundaryOk w (c :: cs))
      || containsWordCIAux w (some c) cs

/-- `new RegExp("\\b" + word + "\\b", "i").test(text)` for a word made of
literal characters. -/
def containsWordCI (w t : String) : Bool := containsWordCIAux w.toList none t.toList

/-! ### Order-preserving deduplication (JavaScript `Set` insertion order) -/

/-- Deduplication keeping the first occurrence, with an accumulator of
already-seen elements — the behaviour of `Array.from(new Set(...))`. -/
def dedupFirstAux {α : Type} [DecidableEq α] (seen : List α) : List α → List α
  | [] => []
  | x :: xs => if x ∈ seen then dedupFirstAux seen xs else x :: dedupFirstAux (x :: seen) xs

/-- `Array.from(new Set(l))`. -/
def dedupFirst {α : Type} [DecidableEq α] (l : List α) : List α := dedupFirstAux [] l

theorem mem_dedupFirstAux {α : Type} [DecidableEq α] (seen : List α) (l : List α) (a : α) :
    a ∈ dedupFirstAux seen l ↔ a ∈ l ∧ a ∉ seen := by
  induction l generalizing seen with
  | nil => simp [dedupFirstAux]
  | cons x xs ih =>
    by_cases hx : x ∈ seen
    · simp only [dedupFirstAux, if_pos hx, ih, List.mem_cons]
      constructor
      · rintro ⟨h1, h2⟩; exact ⟨Or.inr h1, h2⟩
      · rintro ⟨h1, h2⟩
        rcases h1 with rfl | h1
        · exact absurd hx h2
        · exact ⟨h1, h2⟩
    · simp only [dedupFirstAux, if_neg hx, List.mem_cons, ih]
      constructor
      · rintro (rfl | ⟨h1, h2⟩)
        · exact ⟨Or.inl rfl, hx⟩
        · exact ⟨Or.inr h1, fun hs => h2 (Or.inr hs)⟩
      · rintro ⟨rfl | h1, h2⟩
        · exact Or.inl rfl
        · by_cases hax : a = x
          · exact Or.inl hax
          · refine Or.inr ⟨h1, fun hs => ?_⟩
            rcases hs with h | h
            · exact hax h
            · exact h2 h

theorem mem_dedupFirst {α : Type} [DecidableEq α] (l : List α) (a : α) :
    a ∈ dedupFirst l ↔ a ∈ l := by
  simp [dedupFirst, mem_dedupFirstAux]

theorem nodup_dedupFirstAux {α : Type} [DecidableEq α] (seen : List α) (l : List α) :
    (dedupFirstAux seen l).Nodup := by
  induction l generalizing seen with
  | nil => simp [dedupFirstAux]
  | cons x xs ih =>
    by_cases hx : x ∈ seen
    · simpa [dedupFirstAux, if_pos hx] using ih seen
    · simp only [dedupFirstAux, if_neg hx, List.nodup_cons]
      refine ⟨fun hmem => ?_, ih (x :: seen)⟩
      exact ((mem_dedupFirstAux _ _ _).mp hmem).2 (List.mem_cons_self x seen)

theorem nodup_dedupFirst {α : Type} [DecidableEq α] (l : List α) :
    (dedupFirst l).Nodup := nodup_dedupFirstAux [] l

theorem dedupFirstAux_eq_self {α : Type} [DecidableEq α] (seen : List α) (l : List α)
    (hnd : l.Nodup) (hdisj : ∀ a ∈ l, a ∉ seen) : dedupFirstAux seen l = l := by
  induction l generalizing seen with
  | nil => rfl
  | cons x xs ih =>
    have hx : x ∉ seen := hdisj x (List.mem_cons_self x xs)
    have hnd' : xs.Nodup := (List.nodup_cons.mp hnd).2
    have hxxs : x ∉ xs := (List.nodup_cons.mp hnd).1
    simp only [dedupFirstAux, if_neg hx]
    congr 1
    refine ih (x :: seen) hnd' (fun a ha hs => ?_)
    rcases List.mem_cons.mp hs with h | h
    · exact hxxs (h ▸ ha)
    · exact hdisj a (List.mem_cons_of_mem _ ha) h

theorem dedupFirst_eq_self {α : Type} [DecidableEq α] (l : List α) (hnd : l.Nodup) :
    dedupFirst l = l := dedupFirstAux_eq_self [] l hnd (by simp)

theorem dedupFirst_idem {α : Type} [DecidableEq α] (l : List α) :
    dedupFirst (dedupFirst l) = dedupFirst l :=
  dedupFirst_eq_self _ (nodup_dedupFirst l)

/-! ### Stable sorts

`Array.prototype.sort` with the comparators used by the route
(`(a, b) => a.timeToStation - b.timeToStation` ascending, and
`(a, b) => score(b) - score(a)` descending) is a stable sort; the
insertion sorts below are the unique stable sorts for those preorders. -/

/-- Stable insertion (ascending by an integer key): the new element goes
before the first element whose key is not smaller, so earlier elements
with an equal key stay in front. -/
def insertAscBy {α : Type} (key : α → Int) (a : α) : List α → List α
  | [] => [a]
  | y :: ys => if key y < key a then y :: insertAscBy key a ys else a :: y :: ys

/-- Stable ascending sort by an integer key. -/
def sortAscBy {α : Type} (key : α → Int) : List α → List α
  | [] => []
  | x :: xs => insertAscBy key x (sortAscBy key xs)

/-- Stable insertion (descending by a natural key). -/
def insertDescBy {α : Type} (key : α → Nat) (a : α) : List α → List α
  | [] => [a]
  | y :: ys => if key a < key y then y :: insertDescBy key a ys else a :: y :: ys

/-- Stable descending sort by a natural key. -/
def sortDescBy {α : Type} (key : α → Nat) : List α → List α
  | [] => []
  | x :: xs => insertDescBy key x (sortDescBy key xs)

theorem insertAscBy_perm {α : Type} (key : α → Int) (a : α) (l : List α) :
    List.Perm (insertAscBy key a l) (a :: l) := by
  induction l with
  | nil => rfl
  | cons y ys ih =>
    by_cases h : key y < key a
    · simp only [insertAscBy, if_pos h]
      exact (ih.cons y).trans (List.Perm.swap a y ys)
    · simp [insertAscBy, if_neg h]

theorem sortAscBy_perm {α : Type} (key : α → Int) (l : List α) :
    List.Perm (sortAscBy key l) l := by
  induction l with
  | nil => rfl
  | cons x xs ih => exact (insertAscBy_perm key x _).trans (ih.cons x)

theorem insertAscBy_sorted {α : Type} (key : α → Int) (a : α) (l : List α)
    (h : l.Pairwise (fun p q => key p ≤ key q)) :
    (insertAscBy key a l).Pairwise (fun p q => key p ≤ key q) := by
  induction l with
  | nil => simp [insertAscBy]
  | cons y ys ih =>
    rcases List.pairwise_cons.mp h with ⟨hy, hys⟩
    by_cases hlt : key y < key a
    · simp only [insertAscBy, if_pos hlt]
      refine List.pairwise_cons.mpr ⟨?_, ih hys⟩
      intro b hb
      rcases List.mem_cons.mp ((insertAscBy_perm key a ys).mem_iff.mp hb) with h1 | h1
      · exact h1 ▸ le_of_lt hlt
      · exact hy b h1
    · simp only [insertAscBy, if_neg hlt]
      refine List.pairwise_cons.mpr ⟨?_, h⟩
      intro b hb
      rcases List.mem_cons.mp hb with rfl | h1
      · exact le_of_not_lt hlt
      · exact le_trans (le_of_not_lt hlt) (hy b h1)

theorem sortAscBy_sorted {α : Type} (key : α → Int) (l : List α) :
    (sortAscBy key l).Pairwise (fun p q => key p ≤ key q) := by
  induction l with
  | nil => simp [sortAscBy]
  | cons x xs ih => exact insertAscBy_sorted key x _ ih

theorem insertDescBy_perm {α : Type} (key : α → Nat) (a : α) (l : List α) :
    List.Perm (insertDescBy key a l) (a :: l) := by
  induction l with
  | nil => rfl
  | cons y ys ih =>
    by_cases h : key a < key y
    · simp only [insertDescBy, if_pos h]
      exact (ih.cons y).trans (List.Perm.swap a y ys)
    · simp [insertDescBy, if_neg h]

theorem sortDescBy_perm {α : Type} (key : α → Nat) (l : List α) :
    List.Perm (sortDescBy key l) l := by
  induction l with
  | nil => rfl
  | cons x xs ih => exact (insertDescBy_perm key x _).trans (ih.cons x)

theorem insertDescBy_sorted {α : Type} (key : α → Nat) (a : α) (l : List α)
    (h : l.Pairwise (fun p q => key q ≤ key p)) :
    (insertDescBy key a l).Pairwise (fun p q => key q ≤ key p) := by
  induction l with
  | nil => simp [insertDescBy]
  | cons y ys ih =>
    rcases List.pairwise_cons.mp h with ⟨hy, hys⟩
    by_cases hlt : key a < key y
    · simp only [insertDescBy, if_pos hlt]
      refine List.pairwise_cons.mpr ⟨?_, ih hys⟩
      intro b hb
      rcases List.mem_cons.mp ((insertDescBy_perm key a ys).mem_iff.mp hb) with h1 | h1
      · exact h1 ▸ le_of_lt hlt
      · exact hy b h1
    · simp only [insertDescBy, if_neg hlt]
      refine List.pairwise_cons.mpr ⟨?_, h⟩
      intro b hb
      rcases List.mem_cons.mp hb with rfl | h1
      · exact le_of_not_lt hlt
      · exact le_trans (hy b h1) (le_of_not_lt hlt)

theorem sortDescBy_sorted {α : Type} (key : α → Nat) (l : List α) :
    (sortDescBy key l).Pairwise (fun p q => key q ≤ key p) := by
  induction l with
  | nil => simp [sortDescBy]
  | cons x xs ih => exact insertDescBy_sorted key x _ ih

theorem insertDescBy_filter_eq {α : Type} (key : α → Nat) (a : α) (l : List α) (s : Nat) :
    (insertDescBy key a l).filter (fun x => key x = s)
      = if key a = s then a :: l.filter (fun x => key x = s)
        else l.filter (fun x => key x = s) := by
  induction l with
  | nil => by_cases h : key a = s <;> simp [insertDescBy, h]
  | cons y ys ih =>
    by_cases hlt : key a < key y
    · have hys : ¬ (key y = s ∧ key a = s) := by
        rintro ⟨h1, h2⟩; omega
      simp only [insertDescBy, if_pos hlt, List.filter_cons, ih]
      by_cases hy : key y = s
      · have ha : ¬ key a = s := fun h => hys ⟨hy, h⟩
        simp [hy, ha]
      · by_cases ha : key a = s <;> simp [hy, ha]
    · simp only [insertDescBy, if_neg hlt, List.filter_cons]
      by_cases ha : key a = s <;> simp [ha]

/-- Stability of the descending sort: the subsequence of elements at any
fixed score is preserved in the source order. -/
theorem sortDescBy_filter_eq {α : Type} (key : α → Nat) (l : List α) (s : Nat) :
    (sortDescBy key l).filter (fun x => key x = s) = l.filter (fun x => key x = s) := by
  induction l with
  | nil => rfl
  | cons x xs ih =>
    simp only [sortDescBy, insertDescBy_filter_eq, ih, List.filter_cons]
    by_cases hx : key x = s <;> simp [hx]

/-! ### Mode vocabulary and normalisation (`route.ts` lines 271–347) -/

/-- `ALLOWED_MODES` from the route. -/
def ALLOWED_MODES : List String :=
  ["tube", "bus", "dlr", "overground", "tram", "river-bus", "walking",
   "national-rail", "cable-car", "coach", "cycle"]

/-- `DEFAULT_MODES` from the route. -/
def DEFAULT_MODES : List String :=
  ["tube", "bus", "dlr", "overground", "walking", "national-rail"]

/-- `MODE_SYNONYMS`, in the object-literal insertion order (which is the
key-enumeration order used by `extractModesFromQuery`). -/
def MODE_SYNONYMS : List (String × String) :=
  [("underground", "tube"), ("subway", "tube"), ("metro", "tube"),
   ("docklands light railway", "dlr"), ("riverbus", "river-bus"),
   ("river bus", "river-bus"), ("thames clipper", "river-bus"),
   ("thames clippers", "river-bus"), ("walk", "walking"),
   ("on foot", "walking"), ("nr", "national-rail"),
   ("national rail", "national-rail"), ("rail", "national-rail"),
   ("train", "national-rail"), ("tram", "tram"), ("buses", "bus"),
   ("coach", "coach"), ("coaches", "coach"), ("bike", "cycle"),
   ("cycling", "cycle"), ("cable car", "cable-car"), ("dlr", "dlr"),
   ("overground", "overground"), ("tube", "tube"), ("bus", "bus")]

/-- `MODE_SYNONYMS[m]` (object-property lookup). -/
def synLookup (m : String) : Option String :=
  (MODE_SYNONYMS.find? (fun p => p.1 == m)).map (fun p => p.2)

/-- One token through the pipeline head: lower-case then trim
(`String(m || '').toLowerCase().trim()`). -/
def normToken (m : String) : String := jsTrim (jsToLower m)

/-- `MODE_SYNONYMS[m] || m`. -/
def applySynonym (m : String) : String := (synLookup m).getD m

/-- `normalizeTransportModes` from the route: lower-case + trim, drop
empties, map through the synonym table, keep only allowed modes,
deduplicate preserving first occurrence. -/
def normalizeTransportModes (modes : List String) : List String :=
  dedupFirst
    ((((modes.map normToken).filter (fun m => m ≠ "")).map applySynonym).filter
      (fun m => decide (m ∈ ALLOWED_MODES)))

/-- A string is canonical when the whole normalisation pipeline fixes it:
it survives lower-casing, trimming and the synonym table unchanged. -/
def canonicalMode (m : String) : Prop :=
  normToken m = m ∧ applySynonym m = m ∧ m ≠ ""

instance (m : String) : Decidable (canonicalMode m) := by
  unfold canonicalMode; infer_instance

theorem allowed_canonical : ∀ m ∈ ALLOWED_MODES, canonicalMode m := by decide

theorem mem_normalizeTransportModes (modes : List String) (m : String) :
    m ∈ normalizeTransportModes modes → m ∈ ALLOWED_MODES := by
  intro h
  have h1 := (mem_dedupFirst _ _).mp h
  have h2 := List.of_mem_filter h1
  exact of_decide_eq_true h2

theorem nodup_normalizeTransportModes (modes : List String) :
    (normalizeTransportModes modes).Nodup := nodup_dedupFirst _

theorem map_eq_self_of_fix {α : Type} (f : α → α) (l : List α)
    (h : ∀ a ∈ l, f a = a) : l.map f = l := by
  induction l with
  | nil => rfl
  | cons x xs ih =>
    simp only [List.map_cons, h x (List.mem_cons_self x xs)]
    congr 1
    exact ih (fun a ha => h a (List.mem_cons_of_mem _ ha))

theorem filter_eq_self_of_true {α : Type} (p : α → Bool) (l : List α)
    (h : ∀ a ∈ l, p a = true) : l.filter p = l := by
  induction l with
  | nil => rfl
  | cons x xs ih =>
    simp only [List.filter_cons, h x (List.mem_cons_self x xs), if_true]
    congr 1
    exact ih (fun a ha => h a (List.mem_cons_of_mem _ ha))

/-- Normalisation is the identity on lists of canonical allowed modes
that are duplicate-free. -/
theorem normalizeTransportModes_eq_self (l : List String)
    (hmem : ∀ m ∈ l, m ∈ ALLOWED_MODES) (hnd : l.Nodup) :
    normalizeTransportModes l = l := by
  have hcanon : ∀ m ∈ l, canonicalMode m := fun m hm => allowed_canonical m (hmem m hm)
  unfold normalizeTransportModes
  rw [map_eq_self_of_fix normToken l (fun a ha => (hcanon a ha).1)]
  rw [filter_eq_self_of_true _ l (fun a ha => by
    simp only [ne_eq, decide_eq_true_eq]
    exact (hcanon a ha).2.2)]
  rw [map_eq_self_of_fix applySynonym l (fun a ha => (hcanon a ha).2.1)]
  rw [filter_eq_self_of_true _ l (fun a ha => decide_eq_true (hmem a ha))]
  exact dedupFirst_eq_self l hnd

theorem normalizeTransportModes_idem (x : List String) :
    normalizeTransportModes (normalizeTransportModes x) = normalizeTransportModes x :=
  normalizeTransportModes_eq_self _ (mem_normalizeTransportModes x)
    (nodup_normalizeTransportModes x)

/-! ### Exclusivity marker and free-text mode extraction -/

/-- The expansions of the regex `\bno (other )?(modes?|transport)\b`. -/
def NO_MODES_PHRASES : List String :=
  ["no mode", "no modes", "no transport",
   "no other mode", "no other modes", "no other transport"]

/-- `hasOnlyConstraint` from the route (lines 379–386). -/
def hasOnlyConstraint (query : String) : Bool :=
  if query == "" then false
  else
    containsWordCI "only" query || containsWordCI "just" query ||
    containsWordCI "strictly" query || containsWordCI "exclusively" query ||
    containsWordCI "nothing but" query ||
    NO_MODES_PHRASES.any (fun p => containsWordCI p query)

/-- `Object.keys(MODE_SYNONYMS)` in insertion order. -/
def SYN_KEYS : List String := MODE_SYNONYMS.map (fun p => p.1)

/-- `extractModesFromQuery` from the route (lines 327–347): scan the raw
query for whole-word, case-insensitive occurrences of every synonym key
and canonical mode, map to canonical form, keep the allowed ones,
deduplicated in candidate order. -/
def extractModesFromQuery (query : String) : List String :=
  if query == "" then []
  else
    dedupFirst ((SYN_KEYS ++ ALLOWED_MODES).filterMap (fun key =>
      if containsWordCI key query then
        (let mapped := applySynonym key
         if mapped ∈ ALLOWED_MODES then some mapped else none)
      else none))

/-! ### Requested and allowed mode lists (route lines 539–556) -/

/-- `modesMentionedInQuery` (line 539). -/
def modesMentionedInQueryOf (query : String) : List String :=
  normalizeTransportModes (extractModesFromQuery query)

/-- `requestedModes` (lines 540–544): the first present source among the
request body's modes, the intent's modes, and (modes mentioned in the
query, else the default set), normalised.  JavaScript `||` takes any
present array, even an empty one. -/
def requestedModesOf (bodyModes nlModes : Option (List String)) (query : String) :
    List String :=
  normalizeTransportModes
    (match bodyModes with
     | some bs => bs
     | none =>
       match nlModes with
       | some ns => ns
       | none =>
         let mm := modesMentionedInQueryOf query
         if mm ≠ [] then mm else DEFAULT_MODES)

/-- `restrictToMentionedModes` (lines 549–550). -/
def restrictToMentionedModes (query : String) (modePolicy : Option String) : Bool :=
  hasOnlyConstraint query || modePolicy == some "only"

/-- `allowedModes` (lines 551–556). -/
def allowedModesOf (query : String) (modePolicy : Option String)
    (bodyModes nlModes : Option (List String)) : List String :=
  let requested := requestedModesOf bodyModes nlModes query
  if restrictToMentionedModes query modePolicy then requested
  else normalizeTransportModes (dedupFirst (DEFAULT_MODES ++ requested))

theorem default_subset_allowed : ∀ m ∈ DEFAULT_MODES, m ∈ ALLOWED_MODES := by decide

theorem mem_allowedModes_of_not_restrict (query : String) (modePolicy : Option String)
    (bodyModes nlModes : Option (List String))
    (hr : restrictToMentionedModes query modePolicy = false) (m : String) :
    m ∈ allowedModesOf query modePolicy bodyModes nlModes ↔
      m ∈ DEFAULT_MODES ∨ m ∈ requestedModesOf bodyModes nlModes query := by
  unfold allowedModesOf
  rw [hr]
  simp only [Bool.false_eq_true, if_false]
  have hmem : ∀ a ∈ dedupFirst (DEFAULT_MODES ++ requestedModesOf bodyModes nlModes query),
      a ∈ ALLOWED_MODES := by
    intro a ha
    rcases List.mem_append.mp ((mem_dedupFirst _ _).mp ha) with h | h
    · exact default_subset_allowed a h
    · exact mem_normalizeTransportModes _ a h
  rw [normalizeTransportModes_eq_self _ hmem (nodup_dedupFirst _)]
  rw [mem_dedupFirst, List.mem_append]

/-- C6: `normalizeModes` is idempotent; its result is duplicate-free and
drawn only from the fixed 11-mode enumeration; an unknown token is
silently dropped (appending it to any input leaves the result unchanged
— the function is total, it never raises). -/
theorem c6_normalize_modes_idempotent :
    ∀ x : List String,
      normalizeTransportModes (normalizeTransportModes x) = normalizeTransportModes x ∧
      (normalizeTransportModes x).Nodup ∧
      (∀ m ∈ normalizeTransportModes x, m ∈ ALLOWED_MODES) ∧
      (∀ t : String, applySynonym (normToken t) ∉ ALLOWED_MODES →
        normalizeTransportModes (x ++ [t]) = normalizeTransportModes x) := by
  intro x
  refine ⟨normalizeTransportModes_idem x, nodup_normalizeTransportModes x,
    mem_normalizeTransportModes x, ?_⟩
  intro t ht
  unfold normalizeTransportModes
  rw [List.map_append, List.filter_append, List.map_append, List.filter_append]
  have hpipe :
      ((([t].map normToken).filter (fun m => m ≠ "")).map applySynonym).filter
        (fun m => decide (m ∈ ALLOWED_MODES)) = [] := by
    by_cases h0 : normToken t = ""
    · simp [h0]
    · simp only [List.map_cons, List.map_nil, List.filter_cons]
      rw [if_pos (by simpa using h0)]
      simp [ht]
  rw [hpipe, List.append_nil]

/-- Witness for C6: the unknown token `"zeppelin"` is silently dropped. -/
theorem c6_normalize_modes_idempotent_witness :
    normalizeTransportModes (["Tube "] ++ ["zeppelin"]) = normalizeTransportModes ["Tube "] :=
  (c6_normalize_modes_idempotent ["Tube "]).2.2.2 "zeppelin" (by decide)

/-- C2: at `Planning` construction in the natural-language path, if the
raw query has an exclusivity marker or the intent's mode policy is
`only`, the allowed mode list is exactly the normalised requested modes;
otherwise its members are exactly the union of the fixed default mode
set and the requested modes.  In particular policy `only` with mode
`["tube"]` yields exactly `["tube"]`, and policy `prefer` with mode
`["bus"]` yields the default set unioned with `["bus"]`. -/
theorem c2_allowed_mode_merge_policy :
    ∀ (query : String) (modePolicy : Option String)
      (bodyModes nlModes : Option (List String)),
      (restrictToMentionedModes query modePolicy = true →
        allowedModesOf query modePolicy bodyModes nlModes =
          requestedModesOf bodyModes nlModes query) ∧
      (restrictToMentionedModes query modePolicy = false →
        ∀ m, m ∈ allowedModesOf query modePolicy bodyModes nlModes ↔
          m ∈ DEFAULT_MODES ∨ m ∈ requestedModesOf bodyModes nlModes query) ∧
      allowedModesOf "Victoria to Bank" (some "only") none (some ["tube"]) = ["tube"] ∧
      allowedModesOf "Victoria to Bank" (some "prefer") none (some ["bus"]) =
        ["tube", "bus", "dlr", "overground", "walking", "national-rail"] := by
  intro query modePolicy bodyModes nlModes
  refine ⟨?_, ?_, by decide, by decide⟩
  · intro hr
    unfold allowedModesOf
    rw [hr]
    simp
  · intro hr
    exact mem_allowedModes_of_not_restrict query modePolicy bodyModes nlModes hr

/-- Witness for C2: both branches of the merge policy at concrete
inputs — an exclusivity-marked query restricts to the requested modes,
and a plain query unions with the defaults. -/
theorem c2_allowed_mode_merge_policy_witness :
    allowedModesOf "tube only to Bank" (some "prefer") none (some ["tube"]) =
      requestedModesOf none (some ["tube"]) "tube only to Bank" ∧
    ("coach" ∈ allowedModesOf "to Bank" none none (some ["coach"]) ↔
      "coach" ∈ DEFAULT_MODES ∨ "coach" ∈ requestedModesOf none (some ["coach"]) "to Bank") :=
  ⟨(c2_allowed_mode_merge_policy "tube only to Bank" (some "prefer") none
      (some ["tube"])).1 (by decide),
   (c2_allowed_mode_merge_policy "to Bank" none none (some ["coach"])).2.1
      (by decide) "coach"⟩

/-! ### Stop points and rail-code (CRS) extraction (route lines 39–74) -/

/-- The part of a TfL `StopPoint` the route reads.  String fields that
the code guards with `|| ''` are plain strings with `""` for absent;
genuinely optional fields are `Option`. -/
structure ModelStopPoint where
  id : String
  naptanId : String
  stationNaptan : Option String
  commonName : String
  icsCode : Option String
  additionalProperties : List (String × String)
  lat : Int
  lon : Int
  deriving Repr, DecidableEq

/-- The regex `^[A-Z]{3}$`. -/
def isThreeUpper (s : String) : Bool :=
  s.toList.length = 3 && s.toList.all (fun c => 'A' ≤ c && c ≤ 'Z')

/-- Step 1 of `extractCrsFromStopPoint`: a direct CRS in the ICS code. -/
def icsCrs (sp : ModelStopPoint) : Option String :=
  match sp.icsCode with
  | some ics => if isThreeUpper ics then some (jsToUpper ics) else none
  | none => none

/-- Step 2: the first additional property keyed `crs`/`crscode`
(case-insensitively) whose upper-cased value is three capital letters. -/
def propCrs (sp : ModelStopPoint) : Option String :=
  sp.additionalProperties.findSome? (fun p =>
    let key := jsToLower p.1
    if key == "crs" || key == "crscode" then
      (let val := jsToUpper p.2
       if isThreeUpper val then some val else none)
    else none)

/-- The regex `^910G([A-Z]{3})` with flag `i`: pattern-extract a rail
code from a NaPTAN identifier, upper-casing the captured letters. -/
def extract910 (s : String) : Option String :=
  match s.toList with
  | a :: b :: c :: d :: e :: f :: g :: _ =>
    if a == '9' && b == '1' && c == '0' && (d == 'G' || d == 'g')
        && e.isAlpha && f.isAlpha && g.isAlpha then
      some (String.mk [upperChar e, upperChar f, upperChar g])
    else none
  | _ => none

/-- `stopPoint.naptanId || stopPoint.id || ''`. -/
def naptanOrId (sp : ModelStopPoint) : String :=
  if sp.naptanId ≠ "" then sp.naptanId else sp.id

/-- `extractCrsFromStopPoint` from the route: ICS code, then `crs`
properties, then the `910G` pattern on the stop identifier, then the
same pattern on the parent-station identifier. -/
def extractCrsFromStopPoint : Option ModelStopPoint → Option String
  | none => none
  | some sp =>
    match icsCrs sp with
    | some v => some v
    | none =>
      match propCrs sp with
      | some v => some v
      | none =>
        match extract910 (naptanOrId sp) with
        | some v => some v
        | none => extract910 (sp.stationNaptan.getD "")

/-- A plain stop point used by concrete test cases. -/
def mkStop (naptanId : String) (parent : Option String) : ModelStopPoint :=
  { id := naptanId, naptanId := naptanId, stationNaptan := parent,
    commonName := "", icsCode := none, additionalProperties := [], lat := 0, lon := 0 }

/-- C7: rail-code derivation follows the precedence ICS rail-code
property, then `crs`/`crscode` additional property, then the `910G`
pattern on the stop identifier, then the same pattern on the parent
identifier; identifier `910GKGX` yields `KGX`, and with no matching
property and no `910G` prefix the function yields nothing (it is total,
so it returns `none` rather than throwing). -/
theorem c7_rail_code_precedence :
    (∀ sp : ModelStopPoint,
      (∀ ics, sp.icsCode = some ics → isThreeUpper ics = true →
        extractCrsFromStopPoint (some sp) = some (jsToUpper ics)) ∧
      (icsCrs sp = none → ∀ v, propCrs sp = some v →
        extractCrsFromStopPoint (some sp) = some v) ∧
      (icsCrs sp = none → propCrs sp = none → ∀ v,
        extract910 (naptanOrId sp) = some v →
        extractCrsFromStopPoint (some sp) = some v) ∧
      (icsCrs sp = none → propCrs sp = none → extract910 (naptanOrId sp) = none →
        extractCrsFromStopPoint (some sp) = extract910 (sp.stationNaptan.getD ""))) ∧
    extractCrsFromStopPoint (some (mkStop "910GKGX" none)) = some "KGX" ∧
    extractCrsFromStopPoint (some (mkStop "940GZZLUKSX" none)) = none ∧
    extractCrsFromStopPoint none = none := by
  have hsome : ∀ sp : ModelStopPoint, extractCrsFromStopPoint (some sp) =
      (match icsCrs sp with
       | some v => some v
       | none =>
         match propCrs sp with
         | some v => some v
         | none =>
           match extract910 (naptanOrId sp) with
           | some v => some v
           | none => extract910 (sp.stationNaptan.getD "")) := fun _ => rfl
  refine ⟨?_, by decide, by decide, rfl⟩
  intro sp
  refine ⟨?_, ?_, ?_, ?_⟩
  · intro ics hics hthree
    have hics' : icsCrs sp = some (jsToUpper ics) := by
      unfold icsCrs
      rw [hics]
      simp [hthree]
    rw [hsome, hics']
  · intro h1 v h2
    rw [hsome, h1, h2]
  · intro h1 h2 v h3
    rw [hsome, h1, h2, h3]
  · intro h1 h2 h3
    rw [hsome, h1, h2, h3]

/-- Witness for C7: the precedence conjuncts applied at concrete stop
points — a stop with both an ICS rail code and a `910G` identifier uses
the ICS value, and a stop with only a parent-station `910G` identifier
falls through to it. -/
theorem c7_rail_code_precedence_witness :
    extractCrsFromStopPoint
        (some { mkStop "910GPAD" none with icsCode := some "KGX" }) = some "KGX" ∧
    extractCrsFromStopPoint (some (mkStop "940GZZLUPAC" (some "910Gpad"))) = some "PAD" :=
  ⟨((c7_rail_code_precedence.1 { mkStop "910GPAD" none with icsCode := some "KGX" }).1
      "KGX" rfl (by decide)).trans (by decide),
   by
    have h := ((c7_rail_code_precedence.1 (mkStop "940GZZLUPAC" (some "910Gpad"))).2.2.2
      (by decide) (by decide) (by decide))
    rw [h]
    decide⟩

/-! ### Live-arrivals enrichment (`enhanceLegsWithArrivals`, route lines 106–264) -/

/-- The fields of a TfL arrival `Prediction` the route reads.  String
fields guarded in the code with optional chaining or `||` are plain
strings with `""` for absent. -/
structure ModelPrediction where
  id : String
  naptanId : String
  lineId : String
  destinationName : String
  expectedArrival : String
  timeToStation : Int
  platformName : String
  towards : String
  direction : String
  deriving Repr, DecidableEq

/-- The shape produced by `mapPrediction` and by the national-rail
departures mapping (lines 158–165 and 206–213). -/
structure ArrivalInfo where
  id : String
  destinationName : String
  expectedArrival : String
  timeToStation : Int
  platformName : String
  towards : String
  deriving Repr, DecidableEq

/-- `mapPrediction` (lines 206–213); `towards` falls back to
`direction` through `||`. -/
def mapPrediction (p : ModelPrediction) : ArrivalInfo :=
  { id := p.id, destinationName := p.destinationName,
    expectedArrival := p.expectedArrival, timeToStation := p.timeToStation,
    platformName := p.platformName,
    towards := if p.towards ≠ "" then p.towards else p.direction }

/-- The fields of a journey `Leg` the enrichment reads. -/
structure ModelLeg where
  modeId : String
  modeName : String
  routeLineId : Option String
  departurePoint : Option ModelStopPoint
  arrivalPoint : Option ModelStopPoint
  deriving Repr, DecidableEq

/-- `isWalkingLeg` (line 37). -/
def isWalkingLeg (leg : ModelLeg) : Bool := leg.modeId == "walking"

/-- `leg.departurePoint?.naptanId || leg.departurePoint?.id` with the
falsy empty string skipped, as every use of the result is truthiness
guarded. -/
def legStopPointId (leg : ModelLeg) : Option String :=
  match leg.departurePoint with
  | none => none
  | some sp => if sp.naptanId ≠ "" then some sp.naptanId
               else if sp.id ≠ "" then some sp.id else none

/-- `leg.departurePoint?.stationNaptan`, truthiness guarded. -/
def legParentStationId (leg : ModelLeg) : Option String :=
  leg.departurePoint.bind (fun sp => jsTruthy sp.stationNaptan)

/-- `leg.routeOptions?.[0]?.lineIdentifier?.id || leg.mode?.id ||
leg.mode?.name`, lower-cased when truthy (lines 114 and 132). -/
def legLineId (leg : ModelLeg) : Option String :=
  (match jsTruthy leg.routeLineId with
   | some v => some v
   | none =>
     match jsTruthy (some leg.modeId) with
     | some v => some v
     | none => jsTruthy (some leg.modeName)).map jsToLower

/-- The CRS for a national-rail leg:
`extractCrsFromStopPoint(departurePoint) ||
extractCrsFromStopPoint(arrivalPoint)` (line 124). -/
def legCrs (leg : ModelLeg) : Option String :=
  match extractCrsFromStopPoint leg.departurePoint with
  | some c => some c
  | none => extractCrsFromStopPoint leg.arrivalPoint

/-- The `stopPointIds` set (lines 108–121): stop identifier then parent
identifier of every non-walking leg, in insertion order. -/
def stopIdsOf (legs : List ModelLeg) : List String :=
  dedupFirst (((legs.filter (fun l => !isWalkingLeg l)).map
    (fun l => (legStopPointId l).toList ++ (legParentStationId l).toList)).flatten)

/-- The `nrCrsSet` (lines 109, 123–126): CRS codes of the national-rail
legs, in insertion order. -/
def nrCrsListOf (legs : List ModelLeg) : List String :=
  dedupFirst (((legs.filter (fun l => !isWalkingLeg l)).filter
    (fun l => l.modeId == "national-rail")).filterMap legCrs)

/-- The provider boundary of the enrichment: the batched-arrivals fetch,
the national-rail client and the per-line arrivals fetch.  An `.error`
models a rejected promise.  `nrDeps` is `getNextDeparturesByCRS` of the
national-rail client (`src/unnamed/part_002`); that client forwards the
remote departure board in the provider's order — neither of its fetch
paths sorts by time — so the delivered list carries no ordering
guarantee. -/
structure EnrichOracle where
  multiArrivals : List String → Except String (List ModelPrediction)
  nrEnabled : Bool
  nrDeps : String → Except String (List ArrivalInfo)
  lineArrivals : String → String → Except String (List ModelPrediction)

/-- The `nrByCrs` map (lines 151–172): one fetch per distinct CRS, a
failed fetch contributing no entry (its rejection is caught inside the
`Promise.all` branch). -/
def buildNrByCrs (o : EnrichOracle) : List String → List (String × List ArrivalInfo)
  | [] => []
  | c :: cs =>
    match o.nrDeps c with
    | .ok deps => (c, deps) :: buildNrByCrs o cs
    | .error _ => buildNrByCrs o cs

/-- `nrByCrs` for a journey, empty unless the client is enabled and a
CRS was found. -/
def nrByCrsOf (o : EnrichOracle) (legs : List ModelLeg) :
    List (String × List ArrivalInfo) :=
  if o.nrEnabled ∧ nrCrsListOf legs ≠ [] then buildNrByCrs o (nrCrsListOf legs) else []

/-- `nrByCrs.get(crs)` (`Map` lookup). -/
def lookupCrs (m : List (String × List ArrivalInfo)) (c : String) :
    Option (List ArrivalInfo) :=
  (m.find? (fun p => p.1 == c)).map (fun p => p.2)

/-- The batched arrivals (lines 139–146): one call for all collected
stop identifiers, a failure caught and replaced by the empty list. -/
def batchedArrivals (o : EnrichOracle) (legs : List ModelLeg) : List ModelPrediction :=
  if stopIdsOf legs ≠ [] then
    match o.multiArrivals (stopIdsOf legs) with
    | .ok preds => preds
    | .error _ => []
  else []

/-- `sortedArrivals` (line 148). -/
def sortedArrivalsOf (o : EnrichOracle) (legs : List ModelLeg) : List ModelPrediction :=
  sortAscBy (fun p => p.timeToStation) (batchedArrivals o legs)

/-- `candidateStopIds` (line 205). -/
def candidateStopIdsOf (leg : ModelLeg) : List String :=
  (legStopPointId leg).toList ++ (legParentStationId leg).toList

/-- `filterFromCache` (lines 215–217): batched arrivals at the leg's
stop or parent station, ascending by seconds-to-arrival. -/
def filterFromCache (cands : List String) (preds : List ModelPrediction) :
    List ModelPrediction :=
  sortAscBy (fun p => p.timeToStation) (preds.filter (fun p => cands.contains p.naptanId))

/-- The national-rail branch (lines 195–202): the leg's CRS departures
when the client is enabled and the prefetch has an entry, capped at 3. -/
def nrSelection (o : EnrichOracle) (nrByCrs : List (String × List ArrivalInfo))
    (leg : ModelLeg) : Option (List ArrivalInfo) :=
  if leg.modeId == "national-rail" && o.nrEnabled then
    match legCrs leg with
    | some c =>
      match lookupCrs nrByCrs c with
      | some deps => some (deps.take 3)
      | none => none
    | none => none
  else none

/-- Stop-and-line filtered batched arrivals (lines 222–229). -/
def lineFilteredOf (lid : String) (cands : List String)
    (sorted : List ModelPrediction) : List ArrivalInfo :=
  (((filterFromCache cands sorted).filter
      (fun p => jsToLower p.lineId == lid)).take 3).map mapPrediction

/-- Stop-only filtered batched arrivals (lines 232–236). -/
def stopFilteredOf (cands : List String) (sorted : List ModelPrediction) :
    List ArrivalInfo :=
  ((filterFromCache cands sorted).take 3).map mapPrediction

/-- The last-resort targeted per-line call (lines 239–249); a failure is
caught and leaves the empty list. -/
def lineFetchOf (o : EnrichOracle) (lid spid : String) (cands : List String) :
    List ArrivalInfo :=
  match o.lineArrivals lid spid with
  | .ok la =>
    ((sortAscBy (fun p => p.timeToStation)
        (la.filter (fun p => cands.contains p.naptanId))).take 3).map mapPrediction
  | .error _ => []

/-- The per-leg selection (lines 174–261), returning the leg's final
`nextArrivals` (`none` when the field is never set: walking legs, and
non-walking legs without a stop identifier or national-rail hit). -/
def legEnrichment (o : EnrichOracle) (sorted : List ModelPrediction)
    (nrByCrs : List (String × List ArrivalInfo)) (leg : ModelLeg) :
    Option (List ArrivalInfo) :=
  if isWalkingLeg leg then none
  else
    let nrArr := nrSelection o nrByCrs leg
    match legStopPointId leg with
    | none => nrArr
    | some spid =>
      let cands := candidateStopIdsOf leg
      let r0 : List ArrivalInfo := nrArr.getD []
      let r1 :=
        match legLineId leg with
        | some lid => if r0 = [] then lineFilteredOf lid cands sorted else r0
        | none => r0
      let r2 := if r1 = [] then stopFilteredOf cands sorted else r1
      let r3 :=
        match legLineId leg with
        | some lid => if r2 = [] then lineFetchOf o lid spid cands else r2
        | none => r2
      some r3

/-- `enhanceLegsWithArrivals`: the `nextArrivals` field of every leg of
one itinerary. -/
def enhanceLegsWithArrivals (o : EnrichOracle) (legs : List ModelLeg) :
    List (Option (List ArrivalInfo)) :=
  legs.map (legEnrichment o (sortedArrivalsOf o legs) (nrByCrsOf o legs))

/-- The selected arrivals for a non-walking leg with a stop identifier
(the body of the `descriptor?.stopPointId` block, lines 204–253). -/
def chosenArrivals (o : EnrichOracle) (sorted : List ModelPrediction)
    (nrByCrs : List (String × List ArrivalInfo)) (leg : ModelLeg) (spid : String) :
    List ArrivalInfo :=
  let cands := candidateStopIdsOf leg
  let r0 : List ArrivalInfo := (nrSelection o nrByCrs leg).getD []
  let r1 :=
    match legLineId leg with
    | some lid => if r0 = [] then lineFilteredOf lid cands sorted else r0
    | none => r0
  let r2 := if r1 = [] then stopFilteredOf cands sorted else r1
  match legLineId leg with
  | some lid => if r2 = [] then lineFetchOf o lid spid cands else r2
  | none => r2

theorem legEnrichment_nonwalking (o : EnrichOracle) (sorted : List ModelPrediction)
    (nrByCrs : List (String × List ArrivalInfo)) (leg : ModelLeg) (spid : String)
    (hw : isWalkingLeg leg = false) (hs : legStopPointId leg = some spid) :
    legEnrichment o sorted nrByCrs leg = some (chosenArrivals o sorted nrByCrs leg spid) := by
  unfold legEnrichment chosenArrivals
  rw [hw, hs]
  simp

theorem chosen_of_nr (o : EnrichOracle) (sorted : List ModelPrediction)
    (nrByCrs : List (String × List ArrivalInfo)) (leg : ModelLeg) (spid : String)
    (h : (nrSelection o nrByCrs leg).getD [] ≠ []) :
    chosenArrivals o sorted nrByCrs leg spid = (nrSelection o nrByCrs leg).getD [] := by
  unfold chosenArrivals
  cases hl : legLineId leg <;> simp [h]

theorem chosen_of_lineFiltered (o : EnrichOracle) (sorted : List ModelPrediction)
    (nrByCrs : List (String × List ArrivalInfo)) (leg : ModelLeg) (spid lid : String)
    (h0 : (nrSelection o nrByCrs leg).getD [] = [])
    (hl : legLineId leg = some lid)
    (hf : lineFilteredOf lid (candidateStopIdsOf leg) sorted ≠ []) :
    chosenArrivals o sorted nrByCrs leg spid
      = lineFilteredOf lid (candidateStopIdsOf leg) sorted := by
  unfold chosenArrivals
  rw [hl]
  simp [h0, hf]

theorem chosen_of_stopFiltered (o : EnrichOracle) (sorted : List ModelPrediction)
    (nrByCrs : List (String × List ArrivalInfo)) (leg : ModelLeg) (spid : String)
    (h0 : (nrSelection o nrByCrs leg).getD [] = [])
    (hl : ∀ lid, legLineId leg = some lid →
      lineFilteredOf lid (candidateStopIdsOf leg) sorted = [])
    (hf : stopFilteredOf (candidateStopIdsOf leg) sorted ≠ []) :
    chosenArrivals o sorted nrByCrs leg spid
      = stopFilteredOf (candidateStopIdsOf leg) sorted := by
  unfold chosenArrivals
  cases hlid : legLineId leg with
  | none => simp [h0, hf]
  | some lid => simp [h0, hl lid hlid, hf]

theorem chosen_of_lineFetch (o : EnrichOracle) (sorted : List ModelPrediction)
    (nrByCrs : List (String × List ArrivalInfo)) (leg : ModelLeg) (spid lid : String)
    (h0 : (nrSelection o nrByCrs leg).getD [] = [])
    (hl : legLineId leg = some lid)
    (hlf : lineFilteredOf lid (candidateStopIdsOf leg) sorted = [])
    (hsf : stopFilteredOf (candidateStopIdsOf leg) sorted = []) :
    chosenArrivals o sorted nrByCrs leg spid
      = lineFetchOf o lid spid (candidateStopIdsOf leg) := by
  unfold chosenArrivals
  rw [hl]
  simp [h0, hlf, hsf]

theorem chosen_of_empty_noline (o : EnrichOracle) (sorted : List ModelPrediction)
    (nrByCrs : List (String × List ArrivalInfo)) (leg : ModelLeg) (spid : String)
    (h0 : (nrSelection o nrByCrs leg).getD [] = [])
    (hl : legLineId leg = none)
    (hsf : stopFilteredOf (candidateStopIdsOf leg) sorted = []) :
    chosenArrivals o sorted nrByCrs leg spid = [] := by
  unfold chosenArrivals
  rw [hl]
  simp [h0, hsf]

theorem chosen_cases (o : EnrichOracle) (sorted : List ModelPrediction)
    (nrByCrs : List (String × List ArrivalInfo)) (leg : ModelLeg) (spid : String) :
    chosenArrivals o sorted nrByCrs leg spid = (nrSelection o nrByCrs leg).getD [] ∨
    (∃ lid, legLineId leg = some lid ∧ chosenArrivals o sorted nrByCrs leg spid
      = lineFilteredOf lid (candidateStopIdsOf leg) sorted) ∨
    chosenArrivals o sorted nrByCrs leg spid
      = stopFilteredOf (candidateStopIdsOf leg) sorted ∨
    (∃ lid, legLineId leg = some lid ∧ chosenArrivals o sorted nrByCrs leg spid
      = lineFetchOf o lid spid (candidateStopIdsOf leg)) := by
  by_cases h0 : (nrSelection o nrByCrs leg).getD [] = []
  · cases hlid : legLineId leg with
    | none =>
      by_cases hsf : stopFilteredOf (candidateStopIdsOf leg) sorted = []
      · exact Or.inr (Or.inr (Or.inl
          ((chosen_of_empty_noline o sorted nrByCrs leg spid h0 hlid hsf).trans hsf.symm)))
      · refine Or.inr (Or.inr (Or.inl ?_))
        exact chosen_of_stopFiltered o sorted nrByCrs leg spid h0
          (fun lid hl => by rw [hlid] at hl; cases hl) hsf
    | some lid =>
      by_cases hlf : lineFilteredOf lid (candidateStopIdsOf leg) sorted = []
      · by_cases hsf : stopFilteredOf (candidateStopIdsOf leg) sorted = []
        · exact Or.inr (Or.inr (Or.inr ⟨lid, hlid.symm ▸ rfl,
            chosen_of_lineFetch o sorted nrByCrs leg spid lid h0 hlid hlf hsf⟩))
        · refine Or.inr (Or.inr (Or.inl ?_))
          exact chosen_of_stopFiltered o sorted nrByCrs leg spid h0
            (fun lid2 hl2 => by rw [hlid] at hl2; cases hl2; exact hlf) hsf
      · exact Or.inr (Or.inl ⟨lid, hlid.symm ▸ rfl,
          chosen_of_lineFiltered o sorted nrByCrs leg spid lid h0 hlid hlf⟩)
  · exact Or.inl (chosen_of_nr o sorted nrByCrs leg spid h0)

theorem lookupCrs_cons (d : String) (l : List ArrivalInfo)
    (rest : List (String × List ArrivalInfo)) (c : String) :
    lookupCrs ((d, l) :: rest) c = if d == c then some l else lookupCrs rest c := by
  unfold lookupCrs
  by_cases h : d == c
  · rw [List.find?_cons_of_pos _ (by simpa using h)]
    simp [h]
  · rw [List.find?_cons_of_neg _ (by simpa using h)]
    simp [h]

theorem mapPrediction_time (p : ModelPrediction) :
    (mapPrediction p).timeToStation = p.timeToStation := rfl

theorem pairwise_of_sublist {α : Type} {R : α → α → Prop} {l₁ l₂ : List α}
    (hs : l₁.Sublist l₂) (h : l₂.Pairwise R) : l₁.Pairwise R := by
  rw [List.pairwise_iff_forall_sublist] at h ⊢
  exact fun hab => h (hab.trans hs)

theorem pairwise_time_of_sortedPreds (l : List ModelPrediction) (n : Nat)
    (h : l.Pairwise (fun a b => a.timeToStation ≤ b.timeToStation)) :
    ((l.take n).map mapPrediction).Pairwise
      (fun a b => a.timeToStation ≤ b.timeToStation) := by
  rw [List.pairwise_map]
  exact pairwise_of_sublist (l.take_sublist n) h

theorem length_take_map_le (l : List ModelPrediction) (n : Nat) :
    ((l.take n).map mapPrediction).length ≤ n := by
  rw [List.length_map]
  exact List.length_take_le n l

theorem lineFilteredOf_len (lid : String) (cands : List String)
    (sorted : List ModelPrediction) : (lineFilteredOf lid cands sorted).length ≤ 3 :=
  length_take_map_le _ 3

theorem stopFilteredOf_len (cands : List String) (sorted : List ModelPrediction) :
    (stopFilteredOf cands sorted).length ≤ 3 := length_take_map_le _ 3

theorem lineFetchOf_len (o : EnrichOracle) (lid spid : String) (cands : List String) :
    (lineFetchOf o lid spid cands).length ≤ 3 := by
  unfold lineFetchOf
  cases o.lineArrivals lid spid with
  | ok la => exact length_take_map_le _ 3
  | error e => simp

theorem lineFilteredOf_sorted (lid : String) (cands : List String)
    (sorted : List ModelPrediction) :
    (lineFilteredOf lid cands sorted).Pairwise
      (fun a b => a.timeToStation ≤ b.timeToStation) := by
  unfold lineFilteredOf filterFromCache
  exact pairwise_time_of_sortedPreds _ 3
    (pairwise_of_sublist (List.filter_sublist _) (sortAscBy_sorted _ _))

theorem stopFilteredOf_sorted (cands : List String) (sorted : List ModelPrediction) :
    (stopFilteredOf cands sorted).Pairwise
      (fun a b => a.timeToStation ≤ b.timeToStation) := by
  unfold stopFilteredOf filterFromCache
  exact pairwise_time_of_sortedPreds _ 3 (sortAscBy_sorted _ _)

theorem lineFetchOf_sorted (o : EnrichOracle) (lid spid : String) (cands : List String) :
    (lineFetchOf o lid spid cands).Pairwise
      (fun a b => a.timeToStation ≤ b.timeToStation) := by
  unfold lineFetchOf
  cases o.lineArrivals lid spid with
  | ok la => exact pairwise_time_of_sortedPreds _ 3 (sortAscBy_sorted _ _)
  | error e => simp

theorem nrSelection_eq (o : EnrichOracle) (nrByCrs : List (String × List ArrivalInfo))
    (leg : ModelLeg) :
    nrSelection o nrByCrs leg = none ∨
    ∃ c deps, lookupCrs nrByCrs c = some deps ∧
      nrSelection o nrByCrs leg = some (deps.take 3) := by
  cases hg : (leg.modeId == "national-rail" && o.nrEnabled) with
  | false => left; simp [nrSelection, hg]
  | true =>
    cases hc : legCrs leg with
    | none => left; simp [nrSelection, hg, hc]
    | some c =>
      cases hl : lookupCrs nrByCrs c with
      | none => left; simp [nrSelection, hg, hc, hl]
      | some deps =>
        right
        exact ⟨c, deps, hl, by simp [nrSelection, hg, hc, hl]⟩

theorem nrSelection_len (o : EnrichOracle) (legs : List ModelLeg) (leg : ModelLeg) :
    ((nrSelection o (nrByCrsOf o legs) leg).getD []).length ≤ 3 := by
  rcases nrSelection_eq o (nrByCrsOf o legs) leg with h | ⟨c, deps, hl, h⟩
  · simp [h]
  · rw [h]
    simp only [Option.getD_some]
    exact List.length_take_le 3 deps

/-! Concrete three-leg scenario from the spec (§8): batched arrivals
match leg 1's stop and line, leg 2's stop only, and nothing for leg 3. -/

/-- A bare prediction for concrete scenarios. -/
def mkPred (naptanId lineId : String) (t : Int) : ModelPrediction :=
  { id := "", naptanId := naptanId, lineId := lineId, destinationName := "",
    expectedArrival := "", timeToStation := t, platformName := "", towards := "",
    direction := "" }

/-- A bare non-walking leg for concrete scenarios. -/
def mkSimpleLeg (modeId stop lid : String) : ModelLeg :=
  { modeId := modeId, modeName := modeId, routeLineId := some lid,
    departurePoint := some (mkStop stop none), arrivalPoint := none }

def exP1 : ModelPrediction := mkPred "S1" "Central" 100
def exP2 : ModelPrediction := mkPred "S1" "victoria" 50
def exP3 : ModelPrediction := mkPred "S2" "jubilee" 30
def exLeg1 : ModelLeg := mkSimpleLeg "tube" "S1" "central"
def exLeg2 : ModelLeg := mkSimpleLeg "tube" "S2" "northern"
def exLeg3 : ModelLeg := mkSimpleLeg "bus" "S3" "25"

/-- Oracle for the scenario: one batched result set, national-rail
disabled, and an (attempted) per-line lookup that finds nothing. -/
def exOracle : EnrichOracle :=
  { multiArrivals := fun _ => .ok [exP1, exP2, exP3],
    nrEnabled := false,
    nrDeps := fun _ => .error "nr disabled",
    lineArrivals := fun _ _ => .ok [] }

/-- C3 (amended): each enriched non-walking leg's `nextArrivals` is
chosen by first-match-wins precedence — national-rail departures for
the leg's rail code, else batched arrivals filtered to the
stop-or-parent identifier and the line, else to the stop-or-parent
identifier only, else (only with a known line identifier, all prior
steps empty) a targeted per-line call — and capped at 3 entries; the
batched and per-line selections are ascending by seconds-to-arrival,
while the national-rail branch keeps the departures client's order
(`deps.slice(0, 3)` with no sort, and the client does not sort either).
The spec's three-leg scenario yields stop+line arrivals, stop-only
arrivals, and the empty list. -/
theorem c3_arrival_selection_precedence :
    (∀ (o : EnrichOracle) (legs : List ModelLeg) (i : Nat) (leg : ModelLeg) (spid : String),
      legs[i]? = some leg → isWalkingLeg leg = false →
      legStopPointId leg = some spid →
      ∃ chosen,
        (enhanceLegsWithArrivals o legs)[i]? = some (some chosen) ∧
        ((((nrSelection o (nrByCrsOf o legs) leg).getD [] ≠ []) →
            chosen = (nrSelection o (nrByCrsOf o legs) leg).getD []) ∧
         (∀ lid, (nrSelection o (nrByCrsOf o legs) leg).getD [] = [] →
            legLineId leg = some lid →
            lineFilteredOf lid (candidateStopIdsOf leg) (sortedArrivalsOf o legs) ≠ [] →
            chosen = lineFilteredOf lid (candidateStopIdsOf leg) (sortedArrivalsOf o legs)) ∧
         (∀ lid, (nrSelection o (nrByCrsOf o legs) leg).getD [] = [] →
            legLineId leg = some lid →
            lineFilteredOf lid (candidateStopIdsOf leg) (sortedArrivalsOf o legs) = [] →
            stopFilteredOf (candidateStopIdsOf leg) (sortedArrivalsOf o legs) ≠ [] →
            chosen = stopFilteredOf (candidateStopIdsOf leg) (sortedArrivalsOf o legs)) ∧
         ((nrSelection o (nrByCrsOf o legs) leg).getD [] = [] →
            legLineId leg = none →
            stopFilteredOf (candidateStopIdsOf leg) (sortedArrivalsOf o legs) ≠ [] →
            chosen = stopFilteredOf (candidateStopIdsOf leg) (sortedArrivalsOf o legs)) ∧
         (∀ lid, (nrSelection o (nrByCrsOf o legs) leg).getD [] = [] →
            legLineId leg = some lid →
            lineFilteredOf lid (candidateStopIdsOf leg) (sortedArrivalsOf o legs) = [] →
            stopFilteredOf (candidateStopIdsOf leg) (sortedArrivalsOf o legs) = [] →
            chosen = lineFetchOf o lid spid (candidateStopIdsOf leg)) ∧
         ((nrSelection o (nrByCrsOf o legs) leg).getD [] = [] →
            legLineId leg = none →
            stopFilteredOf (candidateStopIdsOf leg) (sortedArrivalsOf o legs) = [] →
            chosen = []) ∧
         chosen.length ≤ 3 ∧
         ((nrSelection o (nrByCrsOf o legs) leg).getD [] = [] →
           chosen.Pairwise (fun a b => a.timeToStation ≤ b.timeToStation)))) ∧
    enhanceLegsWithArrivals exOracle [exLeg1, exLeg2, exLeg3]
      = [some [mapPrediction exP1], some [mapPrediction exP3], some []] := by
  constructor
  · intro o legs i leg spid hget hw hs
    refine ⟨chosenArrivals o (sortedArrivalsOf o legs) (nrByCrsOf o legs) leg spid,
      ?_, ?_, ?_, ?_, ?_, ?_, ?_, ?_, ?_⟩
    · unfold enhanceLegsWithArrivals
      rw [List.getElem?_map, hget]
      simp [legEnrichment_nonwalking o _ _ leg spid hw hs]
    · intro h
      exact chosen_of_nr o _ _ leg spid h
    · intro lid h0 hl hf
      exact chosen_of_lineFiltered o _ _ leg spid lid h0 hl hf
    · intro lid h0 hl hlf hsf
      refine chosen_of_stopFiltered o _ _ leg spid h0 (fun lid2 hl2 => ?_) hsf
      rw [hl] at hl2
      cases hl2
      exact hlf
    · intro h0 hlnone hsf
      refine chosen_of_stopFiltered o _ _ leg spid h0 (fun lid2 hl2 => ?_) hsf
      rw [hlnone] at hl2
      cases hl2
    · intro lid h0 hl hlf hsf
      exact chosen_of_lineFetch o _ _ leg spid lid h0 hl hlf hsf
    · intro h0 hlnone hsf
      exact chosen_of_empty_noline o _ _ leg spid h0 hlnone hsf
    · rcases chosen_cases o (sortedArrivalsOf o legs) (nrByCrsOf o legs) leg spid with
        h | ⟨lid, _, h⟩ | h | ⟨lid, _, h⟩
      · rw [h]; exact nrSelection_len o legs leg
      · rw [h]; exact lineFilteredOf_len lid _ _
      · rw [h]; exact stopFilteredOf_len _ _
      · rw [h]; exact lineFetchOf_len o lid spid _
    · intro h0
      rcases chosen_cases o (sortedArrivalsOf o legs) (nrByCrsOf o legs) leg spid with
        h | ⟨lid, _, h⟩ | h | ⟨lid, _, h⟩
      · rw [h, h0]; exact List.Pairwise.nil
      · rw [h]; exact lineFilteredOf_sorted lid _ _
      · rw [h]; exact stopFilteredOf_sorted _ _
      · rw [h]; exact lineFetchOf_sorted o lid spid _
  · rfl

/-- Witness for C3: the precedence conjuncts applied to leg 1 of the
concrete scenario. -/
theorem c3_arrival_selection_precedence_witness :
    ∃ chosen,
      (enhanceLegsWithArrivals exOracle [exLeg1, exLeg2, exLeg3])[0]?
        = some (some chosen) ∧ chosen.length ≤ 3 := by
  obtain ⟨chosen, h1, hprops⟩ :=
    c3_arrival_selection_precedence.1 exOracle [exLeg1, exLeg2, exLeg3] 0 exLeg1 "S1"
      rfl (by decide) (by decide)
  exact ⟨chosen, h1, hprops.2.2.2.2.2.2.1⟩

/-- A national-rail leg whose departure point carries a `910G` CRS. -/
def nrLeg : ModelLeg :=
  { modeId := "national-rail", modeName := "national-rail", routeLineId := none,
    departurePoint := some (mkStop "910GKGX" none), arrivalPoint := none }

def nrDepLate : ArrivalInfo :=
  { id := "d1", destinationName := "York", expectedArrival := "",
    timeToStation := 100, platformName := "", towards := "" }

def nrDepEarly : ArrivalInfo :=
  { id := "d2", destinationName := "Leeds", expectedArrival := "",
    timeToStation := 50, platformName := "", towards := "" }

/-- An enabled national-rail oracle delivering the departure board in
the provider's (unsorted) order, as the unsorting client can. -/
def nrOracle : EnrichOracle :=
  { multiArrivals := fun _ => .ok [],
    nrEnabled := true,
    nrDeps := fun _ => .ok [nrDepLate, nrDepEarly],
    lineArrivals := fun _ _ => .ok [] }

/-- Counterexample to C3 as stated: the national-rail branch attaches
the departures as delivered (`deps.slice(0, 3)`, route line 199) — the
route never sorts them and neither does `getNextDeparturesByCRS`
(`src/unnamed/part_002`: the REST path maps the server array in order,
the SOAP path keeps board order) — so the chosen list of a national-rail
leg need not be ascending by seconds-to-arrival. -/
theorem c3_nr_unsorted_counterexample :
    enhanceLegsWithArrivals nrOracle [nrLeg] = [some [nrDepLate, nrDepEarly]] ∧
    ¬ ([nrDepLate, nrDepEarly].Pairwise
        (fun a b => a.timeToStation ≤ b.timeToStation)) := by
  refine ⟨rfl, ?_⟩
  intro h
  have := List.rel_of_pairwise_cons h (List.mem_cons_self _ _)
  simp [nrDepLate, nrDepEarly] at this

/-! Failure-isolation lemmas for the enrichment (claim C5). -/

theorem map_congr_fn {α β : Type} (f g : α → β) (l : List α)
    (h : ∀ a ∈ l, f a = g a) : l.map f = l.map g := by
  induction l with
  | nil => rfl
  | cons x xs ih =>
    simp only [List.map_cons, h x (List.mem_cons_self x xs)]
    congr 1
    exact ih (fun a ha => h a (List.mem_cons_of_mem _ ha))

theorem buildNrByCrs_congr (o o' : EnrichOracle) (h : o.nrDeps = o'.nrDeps)
    (cs : List String) : buildNrByCrs o cs = buildNrByCrs o' cs := by
  induction cs with
  | nil => rfl
  | cons c cs ih =>
    simp only [buildNrByCrs, h, ih]

theorem lineFetchOf_congr (o o' : EnrichOracle)
    (h : o.lineArrivals = o'.lineArrivals) : lineFetchOf o = lineFetchOf o' := by
  funext lid spid cands
  unfold lineFetchOf
  rw [h]

theorem legEnrichment_congr (o o' : EnrichOracle) (s : List ModelPrediction)
    (n n' : List (String × List ArrivalInfo)) (leg : ModelLeg)
    (hL : o.lineArrivals = o'.lineArrivals)
    (hN : nrSelection o n leg = nrSelection o' n' leg) :
    legEnrichment o s n leg = legEnrichment o' s n' leg := by
  unfold legEnrichment
  rw [hN, lineFetchOf_congr o o' hL]

theorem buildNrByCrs_lookup_ne (o : EnrichOracle) (c msg c' : String) (hne : c' ≠ c)
    (cs : List String) :
    lookupCrs (buildNrByCrs
      { o with nrDeps := fun x => if x = c then .error msg else o.nrDeps x } cs) c'
      = lookupCrs (buildNrByCrs o cs) c' := by
  set o' : EnrichOracle :=
    { o with nrDeps := fun x => if x = c then .error msg else o.nrDeps x } with ho'
  induction cs with
  | nil => rfl
  | cons d ds ih =>
    by_cases hdc : d = c
    · have e1 : buildNrByCrs o' (d :: ds) = buildNrByCrs o' ds := by
        simp [buildNrByCrs, hdc]
      cases hdep : o.nrDeps d with
      | ok l =>
        have e2 : buildNrByCrs o (d :: ds) = (d, l) :: buildNrByCrs o ds := by
          simp only [buildNrByCrs, hdep]
        have hbeq : (d == c') = false := by
          rw [hdc]
          exact beq_eq_false_iff_ne.mpr (fun h => hne h.symm)
        rw [e1, e2, lookupCrs_cons, hbeq]
        simpa using ih
      | error e =>
        have e2 : buildNrByCrs o (d :: ds) = buildNrByCrs o ds := by
          simp only [buildNrByCrs, hdep]
        rw [e1, e2, ih]
    · cases hdep : o.nrDeps d with
      | ok l =>
        have e1 : buildNrByCrs o' (d :: ds) = (d, l) :: buildNrByCrs o' ds := by
          simp [buildNrByCrs, hdc, hdep]
        have e2 : buildNrByCrs o (d :: ds) = (d, l) :: buildNrByCrs o ds := by
          simp only [buildNrByCrs, hdep]
        rw [e1, e2, lookupCrs_cons, lookupCrs_cons, ih]
      | error e =>
        have e1 : buildNrByCrs o' (d :: ds) = buildNrByCrs o' ds := by
          simp [buildNrByCrs, hdc, hdep]
        have e2 : buildNrByCrs o (d :: ds) = buildNrByCrs o ds := by
          simp only [buildNrByCrs, hdep]
        rw [e1, e2, ih]

theorem lookup_nrByCrsOf_ne (o : EnrichOracle) (legs : List ModelLeg)
    (c msg c' : String) (hne : c' ≠ c) :
    lookupCrs (nrByCrsOf
      { o with nrDeps := fun x => if x = c then .error msg else o.nrDeps x } legs) c'
      = lookupCrs (nrByCrsOf o legs) c' := by
  unfold nrByCrsOf
  by_cases hg : o.nrEnabled ∧ nrCrsListOf legs ≠ []
  · rw [if_pos hg, if_pos hg]
    exact buildNrByCrs_lookup_ne o c msg c' hne _
  · rw [if_neg hg, if_neg hg]

/-- C5: enrichment provider failures are isolated — a failed batched
fetch is equivalent to an empty batch, one rail code's failed fetch
leaves every other code's departures and every other leg untouched, a
failed last-resort per-line fetch leaves that leg with an empty list,
and the enrichment always produces one entry per leg (it never throws
and aborts the itinerary). -/
theorem c5_enrichment_failure_isolation :
    ∀ (o : EnrichOracle) (legs : List ModelLeg),
      (enhanceLegsWithArrivals o legs).length = legs.length ∧
      (∀ e, o.multiArrivals (stopIdsOf legs) = .error e →
        enhanceLegsWithArrivals o legs =
          enhanceLegsWithArrivals { o with multiArrivals := fun _ => .ok [] } legs) ∧
      (∀ c msg c', c' ≠ c →
        lookupCrs (nrByCrsOf
          { o with nrDeps := fun x => if x = c then .error msg else o.nrDeps x } legs) c'
          = lookupCrs (nrByCrsOf o legs) c') ∧
      (∀ (c msg : String) (i : Nat) (leg : ModelLeg),
        legs[i]? = some leg → legCrs leg ≠ some c →
        (enhanceLegsWithArrivals
          { o with nrDeps := fun x => if x = c then .error msg else o.nrDeps x } legs)[i]?
          = (enhanceLegsWithArrivals o legs)[i]?) ∧
      (∀ (i : Nat) (leg : ModelLeg) (spid lid e : String),
        legs[i]? = some leg → isWalkingLeg leg = false →
        legStopPointId leg = some spid → legLineId leg = some lid →
        (nrSelection o (nrByCrsOf o legs) leg).getD [] = [] →
        lineFilteredOf lid (candidateStopIdsOf leg) (sortedArrivalsOf o legs) = [] →
        stopFilteredOf (candidateStopIdsOf leg) (sortedArrivalsOf o legs) = [] →
        o.lineArrivals lid spid = .error e →
        (enhanceLegsWithArrivals o legs)[i]? = some (some ([] : List ArrivalInfo)))
      := by
  intro o legs
  refine ⟨by unfold enhanceLegsWithArrivals; exact List.length_map _ _, ?_, ?_, ?_, ?_⟩
  · intro e herr
    have hb : batchedArrivals o legs = [] := by
      unfold batchedArrivals
      by_cases hids : stopIdsOf legs ≠ []
      · rw [if_pos hids, herr]
      · rw [if_neg hids]
    have hb' : batchedArrivals { o with multiArrivals := fun _ => .ok [] } legs = [] := by
      unfold batchedArrivals
      by_cases hids : stopIdsOf legs ≠ []
      · rw [if_pos hids]
      · rw [if_neg hids]
    have hnrB : nrByCrsOf { o with multiArrivals := fun _ => .ok [] } legs
        = nrByCrsOf o legs := by
      unfold nrByCrsOf
      rw [buildNrByCrs_congr { o with multiArrivals := fun _ => .ok [] } o rfl]
    unfold enhanceLegsWithArrivals sortedArrivalsOf
    rw [hb, hb', hnrB]
    exact map_congr_fn _ _ legs (fun leg _ =>
      legEnrichment_congr o { o with multiArrivals := fun _ => .ok [] } _ _ _ leg rfl rfl)
  · intro c msg c' hne
    exact lookup_nrByCrsOf_ne o legs c msg c' hne
  · intro c msg i leg hget hcrs
    unfold enhanceLegsWithArrivals
    rw [List.getElem?_map, List.getElem?_map, hget]
    have heq : legEnrichment
        { o with nrDeps := fun x => if x = c then .error msg else o.nrDeps x }
        (sortedArrivalsOf
          { o with nrDeps := fun x => if x = c then .error msg else o.nrDeps x } legs)
        (nrByCrsOf
          { o with nrDeps := fun x => if x = c then .error msg else o.nrDeps x } legs) leg
        = legEnrichment o (sortedArrivalsOf o legs) (nrByCrsOf o legs) leg := by
      have hs : sortedArrivalsOf
          { o with nrDeps := fun x => if x = c then .error msg else o.nrDeps x } legs
          = sortedArrivalsOf o legs := rfl
      rw [hs]
      refine legEnrichment_congr _ o _ _ _ leg rfl ?_
      cases hc : legCrs leg with
      | none => simp [nrSelection, hc]
      | some c2 =>
        have hc2 : c2 ≠ c := fun h => hcrs (by rw [hc, h])
        have hlk := lookup_nrByCrsOf_ne o legs c msg c2 hc2
        simp only [nrSelection, hc, hlk]
    rw [Option.map_some', Option.map_some', heq]
  · intro i leg spid lid e hget hw hs hlid h0 hlf hsf herr
    unfold enhanceLegsWithArrivals
    rw [List.getElem?_map, hget]
    have hfetch : lineFetchOf o lid spid (candidateStopIdsOf leg) = [] := by
      unfold lineFetchOf; rw [herr]
    simp only [Option.map_some', legEnrichment_nonwalking o _ _ leg spid hw hs,
      chosen_of_lineFetch o _ _ leg spid lid h0 hlid hlf hsf, hfetch]

/-- An oracle whose every provider call fails, for the C5 witness. -/
def exOracleFail : EnrichOracle :=
  { multiArrivals := fun _ => .error "network down",
    nrEnabled := false,
    nrDeps := fun _ => .error "nr disabled",
    lineArrivals := fun _ _ => .error "boom" }

/-- Witness for C5: a failed batched fetch equals an empty batch, and a
failed per-line fetch leaves leg 3 with an empty arrivals list. -/
theorem c5_enrichment_failure_isolation_witness :
    enhanceLegsWithArrivals exOracleFail [exLeg1, exLeg2, exLeg3] =
      enhanceLegsWithArrivals
        { exOracleFail with multiArrivals := fun _ => .ok [] } [exLeg1, exLeg2, exLeg3] ∧
    (enhanceLegsWithArrivals exOracleFail [exLeg1, exLeg2, exLeg3])[2]?
      = some (some ([] : List ArrivalInfo)) :=
  ⟨(c5_enrichment_failure_isolation exOracleFail [exLeg1, exLeg2, exLeg3]).2.1
      "network down" rfl,
   (c5_enrichment_failure_isolation exOracleFail [exLeg1, exLeg2, exLeg3]).2.2.2.2
      2 exLeg3 "S3" "25" "boom" rfl (by decide) (by decide) (by decide) (by decide)
      (by decide) (by decide) rfl⟩

/-! ### Journey post-processing: preference re-ranking and truncation
(route lines 602–619 and 769–782) -/

/-- The fields of a `Journey` the post-processing reads. -/
structure ModelJourney where
  startDateTime : String
  legs : List ModelLeg
  deriving Repr, DecidableEq

/-- The preference score (lines 606–607): +2 for every leg whose mode is
in the preferred set. -/
def scoreJourney (preferred : List String) (j : ModelJourney) : Nat :=
  j.legs.foldl (fun acc leg => acc + (if preferred.contains leg.modeId then 2 else 0)) 0

theorem scoreJourney_foldl (preferred : List String) (legs : List ModelLeg) :
    ∀ acc : Nat,
      legs.foldl (fun acc leg => acc + (if preferred.contains leg.modeId then 2 else 0)) acc
        = acc + 2 * legs.countP (fun leg => preferred.contains leg.modeId) := by
  induction legs with
  | nil => intro acc; simp
  | cons x xs ih =>
    intro acc
    rw [List.foldl_cons, ih, List.countP_cons]
    by_cases hx : preferred.contains x.modeId = true
    · rw [if_pos hx, if_pos hx]
      ring
    · rw [if_neg hx, if_neg hx]
      ring

theorem scoreJourney_eq_twice_count (preferred : List String) (j : ModelJourney) :
    scoreJourney preferred j
      = 2 * j.legs.countP (fun leg => preferred.contains leg.modeId) := by
  unfold scoreJourney
  rw [scoreJourney_foldl]
  simp

/-- The natural-language path's re-ranking (lines 603–609): a stable
descending sort by score, applied only when the mode policy is not
exclusive and some modes were requested. -/
def rerankJourneys (restrict : Bool) (requested : List String)
    (js : List ModelJourney) : List ModelJourney :=
  if !restrict && !requested.isEmpty then sortDescBy (scoreJourney requested) js else js

/-- `orderedJourneys.slice(0, 3)` on the natural-language path. -/
def nlTopJourneys (restrict : Bool) (requested : List String)
    (js : List ModelJourney) : List ModelJourney :=
  (rerankJourneys restrict requested js).take 3

/-- `journeyResult.journeys.slice(0, 3)` on the manual path. -/
def manualTopJourneys (js : List ModelJourney) : List ModelJourney := js.take 3

/-- C8: every successful planning response carries at most the top 3
itineraries; on the natural-language path with a non-exclusive (prefer)
mode policy and a non-empty requested set, they are re-ranked before
truncation by a stable descending sort on a score equal to twice the
count of legs whose mode is preferred, with provider order preserved
among equal scores. -/
theorem c8_rerank_and_truncate :
    ∀ (restrict : Bool) (requested : List String) (js : List ModelJourney),
      (nlTopJourneys restrict requested js).length ≤ 3 ∧
      (manualTopJourneys js).length ≤ 3 ∧
      manualTopJourneys js = js.take 3 ∧
      (∀ j, scoreJourney requested j
          = 2 * j.legs.countP (fun leg => requested.contains leg.modeId)) ∧
      (restrict = false → requested ≠ [] →
        nlTopJourneys restrict requested js
          = (sortDescBy (scoreJourney requested) js).take 3 ∧
        List.Perm (sortDescBy (scoreJourney requested) js) js ∧
        (sortDescBy (scoreJourney requested) js).Pairwise
          (fun a b => scoreJourney requested b ≤ scoreJourney requested a) ∧
        (∀ sc, (sortDescBy (scoreJourney requested) js).filter
            (fun j => scoreJourney requested j = sc)
          = js.filter (fun j => scoreJourney requested j = sc))) := by
  intro restrict requested js
  refine ⟨?_, ?_, rfl, scoreJourney_eq_twice_count requested, ?_⟩
  · unfold nlTopJourneys
    exact List.length_take_le 3 _
  · unfold manualTopJourneys
    exact List.length_take_le 3 _
  · intro hr hreq
    refine ⟨?_, sortDescBy_perm _ js, sortDescBy_sorted _ js,
      fun sc => sortDescBy_filter_eq _ js sc⟩
    unfold nlTopJourneys rerankJourneys
    rw [hr]
    simp [List.isEmpty_iff, hreq]

/-- Journeys for the C8 witness. -/
def exJourneyBus : ModelJourney :=
  { startDateTime := "2024-01-01T10:00:00", legs := [mkSimpleLeg "bus" "S1" "25"] }

def exJourneyTube : ModelJourney :=
  { startDateTime := "2024-01-01T10:05:00", legs := [mkSimpleLeg "tube" "S2" "central"] }

/-- Witness for C8: with policy prefer and requested `["tube"]`, the
returned list is the stable descending re-ranking, truncated. -/
theorem c8_rerank_and_truncate_witness :
    nlTopJourneys false ["tube"] [exJourneyBus, exJourneyTube]
      = (sortDescBy (scoreJourney ["tube"]) [exJourneyBus, exJourneyTube]).take 3 :=
  ((c8_rerank_and_truncate false ["tube"] [exJourneyBus, exJourneyTube]).2.2.2.2
    rfl (by decide)).1

/-! ### The orchestrator's retry loop (route lines 409–647) -/

/-- The normalized parameter bundle the route hands to the plan
provider (`JourneyPlannerParams`), restricted to the fields the claims
are about; `from`/`to` are coordinate strings or formatted stop points. -/
structure PlanParams where
  fromLoc : String
  toLoc : String
  fromName : Option String
  toName : Option String
  mode : List String
  via : Option String
  viaName : Option String
  deriving Repr, DecidableEq

/-- A response of the route: a success payload (plan parameters used and
the returned top journeys), or an error response with its message. -/
inductive ApiOutcome
  | success (params : PlanParams) (journeys : List ModelJourney)
      (fromName toName : Option String)
  | errorResp (msg : String)
  deriving Repr, DecidableEq

/-- What one attempt of the natural-language loop body does: return a
response (success or an early-gate error response), or throw. -/
inductive AttemptOut
  | ret (r : ApiOutcome)
  | thrown (msg : String)
  deriving Repr, DecidableEq

/-- One character of `JSON.stringify`'s string escaping. -/
def jsonEscapeChar (c : Char) : List Char :=
  if c = '"' then ['\\', '"']
  else if c = '\\' then ['\\', '\\']
  else if c = '\n' then ['\\', 'n']
  else if c = '\r' then ['\\', 'r']
  else if c = '\t' then ['\\', 't']
  else if c.toNat < 32 then
    let hex := fun (n : Nat) => if n < 10 then Char.ofNat (48 + n) else Char.ofNat (87 + n)
    ['\\', 'u', '0', '0', hex (c.toNat / 16), hex (c.toNat % 16)]
  else [c]

def jsonEscape (s : String) : String := String.mk ((s.toList.map jsonEscapeChar).flatten)

def jsonStringArr (l : List String) : String :=
  "[" ++ String.intercalate "," (l.map (fun x => "\"" ++ jsonEscape x ++ "\"")) ++ "]"

/-- The feedback-augmented query built on a failed attempt (lines
629–636): the original query plus a machine-readable JSON feedback
object and a closing instruction. -/
def feedbackQuery (original lastErr : String) : String :=
  original ++ "\n\nJSON_FEEDBACK:\n" ++
  "\x7b\"lastError\":\"" ++ jsonEscape lastErr ++
  "\",\"guidance\":\"Revise stations (must be valid/open), adjust modes/time to produce a feasible plan.\",\"allowedModes\":" ++
  jsonStringArr ALLOWED_MODES ++ ",\"defaultModes\":" ++ jsonStringArr DEFAULT_MODES ++
  "\x7d" ++ "\n\nPlease return updated intent JSON only."

/-- The retry loop (lines 414–647), with the attempt body abstracted as
a function of the current query text: a returned response ends the
loop; a thrown error becomes `lastError` and the loop re-enters with
the feedback-augmented original query; exhaustion surfaces the last
error.  The pair's second component counts the attempts made.  (The
final iteration's feedback string is computed here but never consulted,
matching the `attempt < 4` guard that only skips the unused work.) -/
def journeyLoopGo (f : String → AttemptOut) (orig : String) :
    Nat → String → Option String → ApiOutcome × Nat
  | 0, _, lastErr => (.errorResp (lastErr.getD "Failed to plan journey"), 0)
  | n + 1, cur, _ =>
    match f cur with
    | .ret r => (r, 1)
    | .thrown e =>
      let rest := journeyLoopGo f orig n (feedbackQuery orig e) (some e)
      (rest.1, rest.2 + 1)

/-- The response of the natural-language path's loop: 5 total attempts
(1 initial + 4 retries). -/
def journeyLoop (f : String → AttemptOut) (orig : String) : ApiOutcome :=
  (journeyLoopGo f orig 5 orig none).1

/-- The number of attempts the loop makes. -/
def journeyLoopAttempts (f : String → AttemptOut) (orig : String) : Nat :=
  (journeyLoopGo f orig 5 orig none).2

theorem journeyLoopGo_attempts_le (f : String → AttemptOut) (orig : String)
    (n : Nat) : ∀ (cur : String) (le : Option String),
    (journeyLoopGo f orig n cur le).2 ≤ n := by
  induction n with
  | zero => intro cur le; simp [journeyLoopGo]
  | succ m ih =>
    intro cur le
    unfold journeyLoopGo
    cases f cur with
    | ret r => simp
    | thrown e =>
      simp only []
      exact Nat.succ_le_succ (ih _ _)

/-- C1: the orchestrator makes at most 5 planning attempts; an attempt
that returns — including the 5th — determines the response (so a
success on attempt 5 yields that success), and when all 5 attempts
throw, the response is an error carrying exactly the final attempt's
error message, never a success payload. -/
theorem c1_retry_bound_and_last_error :
    ∀ (f : String → AttemptOut) (orig : String) (e0 e1 e2 e3 e4 : String) (r : ApiOutcome),
      journeyLoopAttempts f orig ≤ 5 ∧
      (f orig = .ret r → journeyLoop f orig = r) ∧
      (f orig = .thrown e0 →
       f (feedbackQuery orig e0) = .thrown e1 →
       f (feedbackQuery orig e1) = .thrown e2 →
       f (feedbackQuery orig e2) = .thrown e3 →
       f (feedbackQuery orig e3) = .ret r →
       journeyLoop f orig = r) ∧
      (f orig = .thrown e0 →
       f (feedbackQuery orig e0) = .thrown e1 →
       f (feedbackQuery orig e1) = .thrown e2 →
       f (feedbackQuery orig e2) = .thrown e3 →
       f (feedbackQuery orig e3) = .thrown e4 →
       journeyLoop f orig = .errorResp e4 ∧
       (∀ p js fn tn, journeyLoop f orig ≠ .success p js fn tn)) := by
  intro f orig e0 e1 e2 e3 e4 r
  refine ⟨journeyLoopGo_attempts_le f orig 5 orig none, ?_, ?_, ?_⟩
  · intro h0
    simp [journeyLoop, journeyLoopGo, h0]
  · intro h0 h1 h2 h3 h4
    simp [journeyLoop, journeyLoopGo, h0, h1, h2, h3, h4]
  · intro h0 h1 h2 h3 h4
    constructor
    · simp [journeyLoop, journeyLoopGo, h0, h1, h2, h3, h4]
    · intro p js fn tn
      simp [journeyLoop, journeyLoopGo, h0, h1, h2, h3, h4]

/-- An attempt body that always throws, for the C1 witness. -/
def exLoopFail : String → AttemptOut := fun _ => .thrown "No journeys found"

/-- An attempt body that throws distinct errors on the first four
queries and succeeds on the fifth, for the C1 witness. -/
def exLoopSucc : String → AttemptOut := fun q =>
  if q = "plan" then .thrown "e0"
  else if q = feedbackQuery "plan" "e0" then .thrown "e1"
  else if q = feedbackQuery "plan" "e1" then .thrown "e2"
  else if q = feedbackQuery "plan" "e2" then .thrown "e3"
  else .ret (.success
    { fromLoc := "51.5,-0.1", toLoc := "51.51,-0.12", fromName := none,
      toName := none, mode := ["tube"], via := none, viaName := none } [] none none)

/-- The success payload returned by `exLoopSucc`'s fifth attempt. -/
def exSuccessOutcome : ApiOutcome :=
  .success
    { fromLoc := "51.5,-0.1", toLoc := "51.51,-0.12", fromName := none,
      toName := none, mode := ["tube"], via := none, viaName := none } [] none none

/-- Witness for C1: all five attempts failing surfaces the final error,
and a success on the fifth attempt is returned. -/
theorem c1_retry_bound_and_last_error_witness :
    journeyLoop exLoopFail "plan" = .errorResp "No journeys found" ∧
    journeyLoop exLoopSucc "plan" = exSuccessOutcome :=
  ⟨((c1_retry_bound_and_last_error exLoopFail "plan" "No journeys found"
      "No journeys found" "No journeys found" "No journeys found" "No journeys found"
      (.errorResp "unused")).2.2.2 rfl rfl rfl rfl rfl).1,
   (c1_retry_bound_and_last_error exLoopSucc "plan" "e0" "e1" "e2" "e3" "unused"
      exSuccessOutcome).2.2.1 (by decide) (by decide) (by decide) (by decide) (by decide)⟩

/-! ### Location resolution and the two request paths
(route lines 401–647 natural-language, 648–792 manual) -/

/-- A geocoder result (the fields the route reads). -/
structure GeoResult where
  name : String
  lat : Int
  lon : Int
  deriving Repr, DecidableEq

/-- Coordinate-pair serialisation used for geocoder hits and
`formatStopPointForJourney`. -/
def coordString (lat lon : Int) : String := toString lat ++ "," ++ toString lon

/-- `tflClient.formatStopPointForJourney`. -/
def formatStopPointForJourney (sp : ModelStopPoint) : String :=
  coordString sp.lat sp.lon

/-- The journey part of a parsed natural-language intent. -/
structure NLJourney where
  fromUseCurrent : Bool
  fromName : Option String
  toName : Option String
  via : List (Option String)
  prefModes : Option (List String)
  modePolicy : Option String
  deriving Repr, DecidableEq

/-- A parsed natural-language intent (one `parseJourneyIntent` result);
the confidence is a rational standing for the JavaScript number. -/
structure NLIntent where
  confidence : ℚ
  isJourneyType : Bool
  journey : Option NLJourney
  ambiguities : List String

/-- The request body fields the two paths read. -/
structure RequestBody where
  fromStr : Option String
  toStr : Option String
  via : List String
  prefModes : Option (List String)
  deriving Repr, DecidableEq

/-- The provider boundary of the resolution paths.  `enhanceName` is the
language-model "did you mean" expansion (`aiClient.enhanceLocationName`,
whose source is not under `src/`); modelled from the spec as a total
function, since §4.2 requires the expansion to be best-effort and never
abort resolution.  The other calls may reject (`.error`). -/
structure PathOracle where
  enhanceName : String → String
  searchStops : String → Except String (List ModelStopPoint)
  geocode : String → Except String (List GeoResult)
  plan : PlanParams → Except String (List ModelJourney)

/-- FROM resolution on the natural-language path (lines 453–488).
`.ok none` when neither current-location nor a name applies;
`.error` is a thrown error (retried by the loop). -/
def resolveFromNL (o : PathOracle) (body : RequestBody) (j : NLJourney) :
    Except String (Option (String × Option String)) :=
  if j.fromUseCurrent then
    match jsTruthy body.fromStr with
    | some bf =>
      if hasComma bf then
        .ok (some (bf, some ((jsTruthy j.fromName).getD "Current location")))
      else
        match o.searchStops bf with
        | .error e => .error e
        | .ok (s :: _) => .ok (some (formatStopPointForJourney s, some s.commonName))
        | .ok [] => .error ("Could not resolve starting location: " ++ bf)
    | none => .error "location_required"
  else
    match jsTruthy j.fromName with
    | some n =>
      match o.searchStops (o.enhanceName n) with
      | .error e => .error e
      | .ok (s :: _) => .ok (some (formatStopPointForJourney s, some s.commonName))
      | .ok [] =>
        match o.geocode n with
        | .error e => .error e
        | .ok (g :: _) => .ok (some (coordString g.lat g.lon, some g.name))
        | .ok [] => .error ("Could not find location: " ++ n)
    | none => .ok none

/-- TO resolution on the natural-language path (lines 490–507). -/
def resolveToNL (o : PathOracle) (j : NLJourney) :
    Except String (String × Option String) :=
  match jsTruthy j.toName with
  | none => .error "Destination is required"
  | some n =>
    match o.searchStops (o.enhanceName n) with
    | .error e => .error e
    | .ok (s :: _) => .ok (formatStopPointForJourney s, some s.commonName)
    | .ok [] =>
      match o.geocode n with
      | .error e => .error e
      | .ok (g :: _) => .ok (coordString g.lat g.lon, some g.name)
      | .ok [] => .error ("Could not find destination: " ++ n)

/-- VIA resolution on the natural-language path (lines 513–530): only
the first via entry is considered, and exhaustion of both strategies
leaves the journey without a via point instead of raising. -/
def resolveViaNL (o : PathOracle) (j : NLJourney) :
    Except String (Option (String × Option String)) :=
  match j.via with
  | [] => .ok none
  | v0 :: _ =>
    match jsTruthy (v0.map jsTrim) with
    | none => .ok none
    | some vc =>
      match o.searchStops (o.enhanceName vc) with
      | .error e => .error e
      | .ok (s :: _) => .ok (some (formatStopPointForJourney s, some s.commonName))
      | .ok [] =>
        match o.geocode vc with
        | .error e => .error e
        | .ok (g :: _) => .ok (some (coordString g.lat g.lon, some g.name))
        | .ok [] => .ok none

/-- One attempt of the natural-language path (lines 416–624): gates on
confidence, query type and ambiguities produce returned error
responses; resolution or planning failures are thrown (and retried by
the loop); success returns the plan parameters and the re-ranked top-3
journeys.  `viaIn` is the function-scoped `viaLocation`/`viaName` state
(route lines 405–406): the retry loop resets only the from/to variables
(lines 416–419), so an attempt inherits the via resolved by an earlier
attempt, overwrites it only when its own via resolution succeeds
(lines 521–527), and hands the updated state to the next attempt.  The
pair's second component is that updated state. -/
def nlAttempt (o : PathOracle) (body : RequestBody) (intent : NLIntent)
    (originalQuery : String) (viaIn : Option (String × Option String)) :
    AttemptOut × Option (String × Option String) :=
  if intent.confidence < mkRat 3 10 then
    (.ret (.errorResp
      "Could not understand your query. Please try rephrasing or use manual station selection."),
     viaIn)
  else if !intent.isJourneyType then
    (.ret (.errorResp "This appears to be a service status query. Please use the status page."),
     viaIn)
  else
    match intent.journey with
    | none =>
      (.ret (.errorResp "This appears to be a service status query. Please use the status page."),
       viaIn)
    | some j =>
      if intent.ambiguities ≠ [] then (.ret (.errorResp "Need more information"), viaIn)
      else
        match resolveFromNL o body j with
        | .error e => (.thrown e, viaIn)
        | .ok fromRes =>
          match resolveToNL o j with
          | .error e => (.thrown e, viaIn)
          | .ok (toLoc, toName) =>
            match fromRes with
            | none => (.thrown "Both starting point and destination are required", viaIn)
            | some (fromLoc, fromName) =>
              match resolveViaNL o j with
              | .error e => (.thrown e, viaIn)
              | .ok newVia =>
                let viaState := newVia.orElse (fun _ => viaIn)
                let requested := requestedModesOf body.prefModes j.prefModes originalQuery
                let params : PlanParams :=
                  { fromLoc := fromLoc, toLoc := toLoc,
                    fromName := fromName, toName := toName,
                    mode := allowedModesOf originalQuery j.modePolicy
                      body.prefModes j.prefModes,
                    via := jsTruthy (viaState.map (fun p => p.1)),
                    viaName := viaState.bind (fun p => jsTruthy p.2) }
                match o.plan params with
                | .error e => (.thrown e, viaState)
                | .ok js =>
                  if js = [] then (.thrown "No journeys found", viaState)
                  else
                    (.ret (.success params
                      (nlTopJourneys
                        (restrictToMentionedModes originalQuery j.modePolicy)
                        requested js)
                      fromName toName),
                     viaState)

/-- The natural-language path end to end: parsing via an intent oracle,
the 5-attempt retry loop, and the persistent via state threaded across
attempts exactly as the function-scoped source variables are. -/
def nlRunGo (parse : String → NLIntent) (o : PathOracle) (body : RequestBody)
    (orig : String) :
    Nat → String → Option String → Option (String × Option String) → ApiOutcome
  | 0, _, lastErr, _ => .errorResp (lastErr.getD "Failed to plan journey")
  | n + 1, cur, _, viaState =>
    match nlAttempt o body (parse cur) orig viaState with
    | (.ret r, _) => r
    | (.thrown e, viaState') =>
      nlRunGo parse o body orig n (feedbackQuery orig e) (some e) viaState'

/-- The natural-language path's response for a request: 5 attempts,
starting with no via state. -/
def nlRun (parse : String → NLIntent) (o : PathOracle) (body : RequestBody)
    (orig : String) : ApiOutcome :=
  nlRunGo parse o body orig 5 orig none none

/-- FROM resolution on the manual path (lines 658–674): coordinates are
used directly, otherwise a station search — an empty result is an
immediate error response, with no geocoder fallback; a thrown search
error escapes to the outer handler (also an error response). -/
def resolveFromManual (o : PathOracle) (bf : String) :
    Except ApiOutcome (String × Option String) :=
  if hasComma bf then .ok (bf, none)
  else
    match o.searchStops bf with
    | .error e => .error (.errorResp e)
    | .ok (s :: _) => .ok (formatStopPointForJourney s, some s.commonName)
    | .ok [] => .error (.errorResp ("Could not find starting location: " ++ bf))

/-- TO resolution on the manual path (lines 687–702): same shape as
FROM — no geocoder fallback. -/
def resolveToManual (o : PathOracle) (toRaw : String) :
    Except ApiOutcome (String × Option String) :=
  if hasComma toRaw then .ok (toRaw, none)
  else
    match o.searchStops toRaw with
    | .error e => .error (.errorResp e)
    | .ok (s :: _) => .ok (formatStopPointForJourney s, some s.commonName)
    | .ok [] => .error (.errorResp ("Could not find destination: " ++ toRaw))

/-- VIA resolution on the manual path (lines 705–724): the only manual
endpoint with a geocoder fallback; exhaustion leaves no via point. -/
def resolveViaManual (o : PathOracle) (body : RequestBody) :
    Except ApiOutcome (Option (String × Option String)) :=
  match body.via with
  | [] => .ok none
  | v0 :: _ =>
    match jsTruthy (some (jsTrim v0)) with
    | none => .ok none
    | some vr =>
      if hasComma vr then .ok (some (vr, none))
      else
        match o.searchStops vr with
        | .error e => .error (.errorResp e)
        | .ok (s :: _) => .ok (some (formatStopPointForJourney s, some s.commonName))
        | .ok [] =>
          match o.geocode vr with
          | .error e => .error (.errorResp e)
          | .ok (g :: _) => .ok (some (coordString g.lat g.lon, some g.name))
          | .ok [] => .ok none

/-- The manual path (lines 648–792): destination check, FROM (with the
`location_required` sentinel when absent), TO, VIA, then one planning
call with no retry; the top 3 journeys are returned. -/
def manualPath (o : PathOracle) (body : RequestBody) : ApiOutcome :=
  match jsTruthy body.toStr with
  | none => .errorResp "Destination is required"
  | some toRaw =>
    match jsTruthy body.fromStr with
    | none => .errorResp "location_required"
    | some bf =>
      match resolveFromManual o bf with
      | .error r => r
      | .ok (fromLoc, fromName) =>
        match resolveToManual o toRaw with
        | .error r => r
        | .ok (toLoc, toName) =>
          match resolveViaManual o body with
          | .error r => r
          | .ok viaRes =>
            let params : PlanParams :=
              { fromLoc := fromLoc, toLoc := toLoc,
                fromName := fromName, toName := toName,
                mode := normalizeTransportModes (body.prefModes.getD DEFAULT_MODES),
                via := jsTruthy (viaRes.map (fun p => p.1)),
                viaName := viaRes.bind (fun p => jsTruthy p.2) }
            match o.plan params with
            | .error e => .errorResp e
            | .ok js => .success params (manualTopJourneys js) fromName toName

/-- A provider oracle whose searches find nothing, for concrete cases. -/
def exPathOracle : PathOracle :=
  { enhanceName := fun n => n, searchStops := fun _ => .ok [],
    geocode := fun _ => .ok [], plan := fun _ => .ok [] }

/-- C9: a request that supplies a destination but no from location (and
no current-location coordinates) yields an error response whose message
is exactly the sentinel `location_required`; in particular
`{to: "Westminster"}` with no `from`. -/
theorem c9_location_required_sentinel :
    (∀ (o : PathOracle) (body : RequestBody) (t : String),
      jsTruthy body.toStr = some t → jsTruthy body.fromStr = none →
      manualPath o body = .errorResp "location_required") ∧
    manualPath exPathOracle
      { fromStr := none, toStr := some "Westminster", via := [], prefModes := none }
      = .errorResp "location_required" := by
  constructor
  · intro o body t ht hf
    unfold manualPath
    rw [ht, hf]
  · rfl

/-- Witness for C9: the sentinel at a concrete body with a from field
present but empty (JavaScript-falsy). -/
theorem c9_location_required_sentinel_witness :
    manualPath exPathOracle
      { fromStr := some "", toStr := some "Bank", via := [], prefModes := none }
      = .errorResp "location_required" :=
  c9_location_required_sentinel.1 exPathOracle
    { fromStr := some "", toStr := some "Bank", via := [], prefModes := none }
    "Bank" rfl rfl

/-! C4: the claim that every failing strategy (network error or empty
result) falls through to the next on both paths is false: the manual
path's from/to have no geocoder fallback, and a thrown station search
propagates instead of falling through. -/

def exGeo : GeoResult := { name := "Foo Street", lat := 51, lon := 0 }

/-- Oracle whose station search finds nothing but whose geocoder finds
`Foo`. -/
def c4Oracle : PathOracle :=
  { enhanceName := fun n => n, searchStops := fun _ => .ok [],
    geocode := fun _ => .ok [exGeo], plan := fun _ => .ok [exJourneyTube] }

/-- Oracle whose station search throws and whose geocoder finds `Foo`. -/
def c4ErrOracle : PathOracle :=
  { enhanceName := fun n => n, searchStops := fun _ => .error "network down",
    geocode := fun _ => .ok [exGeo], plan := fun _ => .ok [exJourneyTube] }

def c4Body : RequestBody :=
  { fromStr := some "Foo", toStr := some "51.5,-0.1", via := [], prefModes := none }

def c4Journey : NLJourney :=
  { fromUseCurrent := false, fromName := some "Foo", toName := some "Bank",
    via := [], prefModes := none, modePolicy := none }

/-- The `useCurrentLocation` variant of the from intent. -/
def c4CurJourney : NLJourney :=
  { fromUseCurrent := true, fromName := none, toName := some "Bank",
    via := [], prefModes := none, modePolicy := none }

/-- Counterexample to C4 as stated: (1) on the manual path, an empty
station search for `from` raises location-not-found even though the
geocoder strategy would succeed — the cascade does not fall through;
(2) on the natural-language path, a station search that throws (network
error) propagates the error instead of falling through to the geocoder;
(3) in the natural-language `useCurrentLocation` branch (route lines
454–469), an empty station search for a non-coordinate `body.from`
throws without consulting the (successful) geocoder. -/
theorem c4_cascade_counterexample :
    (manualPath c4Oracle c4Body = .errorResp "Could not find starting location: Foo" ∧
      c4Oracle.geocode "Foo" = .ok [exGeo]) ∧
    (resolveFromNL c4ErrOracle c4Body c4Journey = .error "network down" ∧
      c4ErrOracle.geocode "Foo" = .ok [exGeo]) ∧
    (resolveFromNL c4Oracle c4Body c4CurJourney
        = .error "Could not resolve starting location: Foo" ∧
      c4Oracle.geocode "Foo" = .ok [exGeo]) := by
  refine ⟨⟨?_, rfl⟩, ⟨?_, rfl⟩, ⟨?_, rfl⟩⟩ <;> rfl

/-- C4 amended: on the natural-language path, a station search
returning an empty result set for a name-based from (not
`useCurrentLocation`) or for to falls through to the geocoder, and a
location-not-found error is raised only when the geocoder also returns
empty; the via waypoint falls through likewise and never raises on
empty results (on either path).  In the `useCurrentLocation` branch, an
empty station search for a non-coordinate `body.from` throws without a
geocoder fallback.  On the manual path, from and to have no geocoder
fallback: an empty station search raises immediately.  A station search
that throws propagates instead of falling through. -/
theorem c4_cascade_amended :
    ∀ (o : PathOracle) (body : RequestBody) (j : NLJourney) (n : String),
      (j.fromUseCurrent = true → jsTruthy body.fromStr = some n →
        hasComma n = false → o.searchStops n = .ok [] →
        resolveFromNL o body j
          = .error ("Could not resolve starting location: " ++ n)) ∧
      (hasComma n = false → o.searchStops n = .ok [] →
        resolveToManual o n
          = .error (.errorResp ("Could not find destination: " ++ n))) ∧
      (j.fromUseCurrent = false → jsTruthy j.fromName = some n →
        o.searchStops (o.enhanceName n) = .ok [] →
        ((∀ g gs, o.geocode n = .ok (g :: gs) →
          resolveFromNL o body j = .ok (some (coordString g.lat g.lon, some g.name))) ∧
         (o.geocode n = .ok [] →
          resolveFromNL o body j = .error ("Could not find location: " ++ n)))) ∧
      (jsTruthy j.toName = some n →
        o.searchStops (o.enhanceName n) = .ok [] →
        ((∀ g gs, o.geocode n = .ok (g :: gs) →
          resolveToNL o j = .ok (coordString g.lat g.lon, some g.name)) ∧
         (o.geocode n = .ok [] →
          resolveToNL o j = .error ("Could not find destination: " ++ n)))) ∧
      (∀ v rest, j.via = v :: rest → jsTruthy (v.map jsTrim) = some n →
        o.searchStops (o.enhanceName n) = .ok [] →
        ((∀ g gs, o.geocode n = .ok (g :: gs) →
          resolveViaNL o j = .ok (some (coordString g.lat g.lon, some g.name))) ∧
         (o.geocode n = .ok [] → resolveViaNL o j = .ok none))) ∧
      (∀ v rest, body.via = v :: rest → jsTruthy (some (jsTrim v)) = some n →
        hasComma n = false → o.searchStops n = .ok [] →
        (∀ g gs, o.geocode n = .ok (g :: gs) →
          resolveViaManual o body = .ok (some (coordString g.lat g.lon, some g.name)))) ∧
      (hasComma n = false → o.searchStops n = .ok [] →
        resolveFromManual o n
          = .error (.errorResp ("Could not find starting location: " ++ n))) ∧
      (∀ e, j.fromUseCurrent = false → jsTruthy j.fromName = some n →
        o.searchStops (o.enhanceName n) = .error e →
        resolveFromNL o body j = .error e) := by
  intro o body j n
  refine ⟨?_, ?_, ?_, ?_, ?_, ?_, ?_, ?_⟩
  · intro hcur hbody hcomma hsearch
    simp only [resolveFromNL, hcur, hbody, hcomma, hsearch]
    simp
  · intro hcomma hsearch
    simp only [resolveToManual, hcomma, hsearch]
    simp
  · intro hcur hname hsearch
    constructor
    · intro g gs hgeo
      simp only [resolveFromNL, hcur, hname, hsearch, hgeo]
      simp
    · intro hgeo
      simp only [resolveFromNL, hcur, hname, hsearch, hgeo]
      simp
  · intro hname hsearch
    constructor
    · intro g gs hgeo
      simp only [resolveToNL, hname, hsearch, hgeo]
    · intro hgeo
      simp only [resolveToNL, hname, hsearch, hgeo]
  · intro v rest hvia hvc hsearch
    constructor
    · intro g gs hgeo
      simp only [resolveViaNL, hvia, hvc, hsearch, hgeo]
    · intro hgeo
      simp only [resolveViaNL, hvia, hvc, hsearch, hgeo]
  · intro v rest hvia hvc hcomma hsearch g gs hgeo
    simp only [resolveViaManual, hvia, hvc, hcomma, hsearch, hgeo]
    simp
  · intro hcomma hsearch
    simp only [resolveFromManual, hcomma, hsearch]
    simp
  · intro e hcur hname hsearch
    simp only [resolveFromNL, hcur, hname, hsearch]
    simp

/-- Witness for the amended C4: the natural-language from endpoint falls
through an empty station search to the geocoder at a concrete input. -/
theorem c4_cascade_amended_witness :
    resolveFromNL c4Oracle c4Body c4Journey = .ok (some ("51,0", some "Foo Street")) ∧
    resolveFromNL c4Oracle c4Body c4CurJourney
      = .error ("Could not resolve starting location: " ++ "Foo") :=
  ⟨((c4_cascade_amended c4Oracle c4Body c4Journey "Foo").2.2.1 rfl rfl rfl).1 exGeo [] rfl,
   (c4_cascade_amended c4Oracle c4Body c4CurJourney "Foo").1 rfl rfl (by decide) rfl⟩

/-- A stop point at explicit coordinates, for concrete cases. -/
def mkStopAt (id : String) (lat lon : Int) (name : String) : ModelStopPoint :=
  { id := id, naptanId := id, stationNaptan := none, commonName := name,
    icsCode := none, additionalProperties := [], lat := lat, lon := lon }

/-- Oracle for the C10 counterexample: the first intent's via resolves,
the retried intent's via resolves nowhere, and planning succeeds only
from the second intent's origin. -/
def c10xOracle : PathOracle :=
  { enhanceName := fun n => n,
    searchStops := fun q =>
      if q = "AlphaOne" then .ok [mkStopAt "X1" 1 1 "Alpha One"]
      else if q = "AlphaTwo" then .ok [mkStopAt "X2" 2 2 "Alpha Two"]
      else if q = "Bravo" then .ok [mkStopAt "X3" 3 3 "Bravo"]
      else if q = "ViaOne" then .ok [mkStopAt "X5" 5 5 "Via One"]
      else .ok [],
    geocode := fun _ => .ok [],
    plan := fun p =>
      if p.fromLoc = "2,2" then .ok [exJourneyTube] else .error "No journeys found" }

def c10xIntent1 : NLIntent :=
  { confidence := 1, isJourneyType := true,
    journey := some
      { fromUseCurrent := false, fromName := some "AlphaOne",
        toName := some "Bravo", via := [some "ViaOne"],
        prefModes := some ["tube"], modePolicy := some "only" },
    ambiguities := [] }

def c10xIntent2 : NLIntent :=
  { confidence := 1, isJourneyType := true,
    journey := some
      { fromUseCurrent := false, fromName := some "AlphaTwo",
        toName := some "Bravo", via := [some "Atlantis"],
        prefModes := some ["tube"], modePolicy := some "only" },
    ambiguities := [] }

/-- Parse oracle: the original query yields the first intent, any
feedback-augmented retry query yields the revised one. -/
def c10xParse : String → NLIntent := fun q =>
  if q = "orig" then c10xIntent1 else c10xIntent2

def c10xBody : RequestBody :=
  { fromStr := none, toStr := none, via := [], prefModes := none }

/-- Counterexample to C10 as stated: the source never resets
`viaLocation`/`viaName` inside the retry loop (declared at route lines
405–406, while the per-attempt resets at 416–419 cover only from/to),
so after attempt 1 resolves the via to `5,5` and planning fails,
attempt 2 — whose own via (`Atlantis`) fails entirely, station search
and geocoder both returning empty — plans with the stale via `5,5`
rather than with no via point at all. -/
theorem c10_stale_via_counterexample :
    c10xOracle.searchStops (c10xOracle.enhanceName "Atlantis") = .ok [] ∧
    c10xOracle.geocode "Atlantis" = .ok [] ∧
    nlRun c10xParse c10xOracle c10xBody "orig"
      = .success
          { fromLoc := "2,2", toLoc := "3,3", fromName := some "Alpha Two",
            toName := some "Bravo", mode := ["tube"], via := some "5,5",
            viaName := some "Via One" }
          [exJourneyTube] (some "Alpha Two") (some "Bravo") := by
  refine ⟨rfl, rfl, ?_⟩
  decide

/-- C10 (amended): on the natural-language path, total via failure —
station search and geocoder both returning empty — is never surfaced as
an error or a retry trigger; an attempt holding no via state from
earlier attempts (in particular the first attempt) then plans with no
via point at all, while an attempt that inherited a via from an earlier
attempt plans with that stale via, since the retry loop never resets
the via variables. -/
theorem c10_via_exhaustion_amended :
    ∀ (o : PathOracle) (body : RequestBody) (j : NLJourney)
      (originalQuery vn vc fromLoc toLoc : String)
      (fromName toName : Option String) (js : List ModelJourney),
      j.via = [some vn] →
      jsTruthy (some (jsTrim vn)) = some vc →
      o.searchStops (o.enhanceName vc) = .ok [] →
      o.geocode vc = .ok [] →
      resolveFromNL o body j = .ok (some (fromLoc, fromName)) →
      resolveToNL o j = .ok (toLoc, toName) →
      resolveViaNL o j = .ok none ∧
      (o.plan
          { fromLoc := fromLoc, toLoc := toLoc, fromName := fromName, toName := toName,
            mode := allowedModesOf originalQuery j.modePolicy body.prefModes j.prefModes,
            via := none, viaName := none } = .ok js →
        js ≠ [] →
        nlAttempt o body
          { confidence := 1, isJourneyType := true, journey := some j, ambiguities := [] }
          originalQuery none
          = (.ret (.success
              { fromLoc := fromLoc, toLoc := toLoc,
                fromName := fromName, toName := toName,
                mode := allowedModesOf originalQuery j.modePolicy body.prefModes j.prefModes,
                via := none, viaName := none }
              (nlTopJourneys (restrictToMentionedModes originalQuery j.modePolicy)
                (requestedModesOf body.prefModes j.prefModes originalQuery) js)
              fromName toName), none)) ∧
      (∀ (loc : String) (nm : Option String),
        o.plan
          { fromLoc := fromLoc, toLoc := toLoc, fromName := fromName, toName := toName,
            mode := allowedModesOf originalQuery j.modePolicy body.prefModes j.prefModes,
            via := jsTruthy (some loc), viaName := jsTruthy nm } = .ok js →
        js ≠ [] →
        nlAttempt o body
          { confidence := 1, isJourneyType := true, journey := some j, ambiguities := [] }
          originalQuery (some (loc, nm))
          = (.ret (.success
              { fromLoc := fromLoc, toLoc := toLoc,
                fromName := fromName, toName := toName,
                mode := allowedModesOf originalQuery j.modePolicy body.prefModes j.prefModes,
                via := jsTruthy (some loc), viaName := jsTruthy nm }
              (nlTopJourneys (restrictToMentionedModes originalQuery j.modePolicy)
                (requestedModesOf body.prefModes j.prefModes originalQuery) js)
              fromName toName), some (loc, nm))) := by
  intro o body j originalQuery vn vc fromLoc toLoc fromName toName js
    hvia hvc hsearch hgeo hfrom hto
  have hviaRes : resolveViaNL o j = .ok none := by
    simp only [resolveViaNL, hvia, Option.map_some', hvc, hsearch, hgeo]
  have hconf : ¬ ((1 : ℚ) < mkRat 3 10) := by decide
  refine ⟨hviaRes, ?_, ?_⟩
  · intro hplan hjs
    simp only [nlAttempt, hconf, if_false, Bool.not_true, hfrom, hto, hviaRes,
      Option.orElse, Option.map_none', Option.none_bind, jsTruthy, hplan, hjs, ne_eq,
      not_true_eq_false, Bool.false_eq_true, reduceCtorEq, ite_false]
  · intro loc nm hplan hjs
    simp only [nlAttempt, hconf, if_false, Bool.not_true, hfrom, hto, hviaRes,
      Option.orElse, Option.map_some', Option.some_bind, hplan, hjs, ne_eq,
      not_true_eq_false, Bool.false_eq_true, reduceCtorEq, ite_false]

/-- Concrete inputs for the C10 witness: the via name resolves nowhere,
from/to resolve by station search. -/
def c10Oracle : PathOracle :=
  { enhanceName := fun n => n,
    searchStops := fun q =>
      if q = "Canary Wharf" then .ok [mkStop "940GZZLUCYF" none]
      else if q = "Oxford Circus" then .ok [mkStop "940GZZLUOXC" none]
      else .ok [],
    geocode := fun _ => .ok [],
    plan := fun _ => .ok [exJourneyTube] }

def c10Journey : NLJourney :=
  { fromUseCurrent := false, fromName := some "Canary Wharf",
    toName := some "Oxford Circus", via := [some "Atlantis"],
    prefModes := some ["tube"], modePolicy := some "prefer" }

def c10Body : RequestBody :=
  { fromStr := none, toStr := none, via := [], prefModes := none }

/-- Witness for the amended C10: with an unresolvable via waypoint and
no earlier via state, the attempt resolves it to "no via point" and
returns the planner's success with no via in the parameters. -/
theorem c10_via_exhaustion_amended_witness :
    resolveViaNL c10Oracle c10Journey = .ok none ∧
    nlAttempt c10Oracle c10Body
        { confidence := 1, isJourneyType := true, journey := some c10Journey,
          ambiguities := [] } "q" none
      = (.ret (.success
          { fromLoc := "0,0", toLoc := "0,0", fromName := some "", toName := some "",
            mode := allowedModesOf "q" c10Journey.modePolicy c10Body.prefModes
              c10Journey.prefModes,
            via := none, viaName := none }
          (nlTopJourneys (restrictToMentionedModes "q" c10Journey.modePolicy)
            (requestedModesOf c10Body.prefModes c10Journey.prefModes "q")
            [exJourneyTube])
          (some "") (some "")), none) := by
  have h := c10_via_exhaustion_amended c10Oracle c10Body c10Journey "q" "Atlantis"
    "Atlantis" "0,0" "0,0" (some "") (some "") [exJourneyTube]
    rfl (by decide) rfl rfl rfl rfl
  exact ⟨h.1, h.2.1 rfl (by decide)⟩

end Spitro
